import Mathlib

/-!
Verification development for the Knowledge-Graph-Based Hybrid RAG system.

The Python sources are shallowly embedded:
* `Neo4jKG/kgbuilder.py` — record extraction (`is_birmingham_affiliated`,
  `extract_document_data`, `extract_authors_data`, …), the per-record loop of
  `process_papers`, its CO_AUTHOR counting/writing step, and `execute_query`'s
  retry loop.
* `RAG/collaboration.py` — `analyze_collaboration_network` (paper filtering,
  per-author paper counts, pairwise co-occurrence accumulation, active-author
  graph, centrality dispatch) and `analyze_research_trends` (yearly
  aggregation, least-squares trend, emerging keywords).
* `LLMpoweredRAG.py` — the growing/stable classification of `_analyze_trends`.

Python dictionaries with heterogeneous values are modelled by the `JVal` tree;
Python operations that can raise (`.lower()`, `.replace()`, `int(...)`) return
`Except Unit _`.  Machine floats of `np.polyfit` are modelled by exact
rationals.  External library calls (networkx centralities) are parameters.
-/

/-! ## String utilities (Python `in`, `lower`, `replace`, `int`, `split`) -/

/-- Bool test that `n` is an initial run of `h` (helper for substring search). -/
def chListPfx : List Char → List Char → Bool
  | [], _ => true
  | _ :: _, [] => false
  | a :: as, b :: bs => a == b && chListPfx as bs

/-- Bool test that `n` occurs contiguously inside `h`; models Python `n in h`
for strings. -/
def chListSub (n : List Char) : List Char → Bool
  | [] => chListPfx n []
  | c :: t => chListPfx n (c :: t) || chListSub n t

/-- Python `needle in hay` on strings. -/
def strHasSub (hay needle : String) : Bool :=
  chListSub needle.data hay.data

/-- Python `str.lower()` (per-character lowering). -/
def strLower (s : String) : String :=
  ⟨s.data.map Char.toLower⟩

/-- Replace every (left-to-right, non-overlapping) occurrence of `old` by
`new`; models Python `str.replace(old, new)` for non-empty `old`.  The fuel
argument (at least the list length) only forces structural recursion: every
step consumes at least one character. -/
def chListReplaceGo (old new : List Char) : Nat → List Char → List Char
  | 0, l => l
  | fuel + 1, l =>
    match l with
    | [] => []
    | c :: t =>
      if chListPfx old (c :: t) && !old.isEmpty then
        new ++ chListReplaceGo old new fuel (List.drop (old.length - 1) t)
      else
        c :: chListReplaceGo old new fuel t

/-- Python `s.replace(old, new)`. -/
def strReplace (s old new : String) : String :=
  ⟨chListReplaceGo old.data new.data s.data.length s.data⟩

/-- Digit run with optional single underscores between digits, as accepted by
CPython `int(str)` after sign handling; `none` when malformed. -/
def digitsCore (acc : Nat) : List Char → Option Nat
  | [] => some acc
  | '_' :: c :: rest =>
    if c.isDigit then digitsCore (acc * 10 + (c.toNat - 48)) rest else none
  | ['_'] => none
  | c :: rest =>
    if c.isDigit then digitsCore (acc * 10 + (c.toNat - 48)) rest else none

/-- Parse a non-empty digit sequence (underscore-separated) to its value. -/
def parseDigits : List Char → Option Nat
  | [] => none
  | c :: rest => if c.isDigit then digitsCore (c.toNat - 48) rest else none

/-- Strip leading and trailing whitespace (Python `str.strip()`, modelled for
ASCII whitespace). -/
def pyStrip (s : String) : String :=
  ⟨(((s.data.dropWhile Char.isWhitespace).reverse).dropWhile Char.isWhitespace).reverse⟩

/-- Python `int(s)` for a string argument: strip surrounding whitespace, read
an optional sign and then digits; `none` models `ValueError`.  (Modelled for
ASCII digits/whitespace, the forms occurring in the data.) -/
def pyIntStr (s : String) : Option Int :=
  match (pyStrip s).data with
  | [] => none
  | '+' :: rest => (parseDigits rest).map Int.ofNat
  | '-' :: rest => (parseDigits rest).map (fun n => -(n : Int))
  | cs => (parseDigits cs).map Int.ofNat

/-! ## Python values (`JVal`) and dict records -/

/-- A Python/JSON value as found in the Scopus records consumed by
`kgbuilder.py`. -/
inductive JVal where
  | jstr (s : String)
  | jnum (n : Int)
  | jarr (xs : List JVal)
  | jobj (kvs : List (String × JVal))
  | jnull

/-- A Python dict record (keys are unique in real dicts; lookup takes the
first binding). -/
abbrev PyDict := List (String × JVal)

/-- Dict lookup, `none` when the key is absent. -/
def dLookup (d : PyDict) (k : String) : Option JVal :=
  match d with
  | [] => none
  | kv :: t => if kv.1 = k then some kv.2 else dLookup t k

/-- Python `d.get(k, dflt)`. -/
def dGet (d : PyDict) (k : String) (dflt : JVal) : JVal :=
  (dLookup d k).getD dflt

/-- Python `k in d` for dicts. -/
def dHasKey (d : PyDict) (k : String) : Bool :=
  (dLookup d k).isSome

/-- Python truthiness of a value. -/
def pyTruthy : JVal → Bool
  | .jstr s => s ≠ ""
  | .jnum n => n ≠ 0
  | .jarr xs => !xs.isEmpty
  | .jobj kvs => !kvs.isEmpty
  | .jnull => false

/-- Python `v.lower()`: only defined on strings, otherwise raises
(`AttributeError`). -/
def pyLower : JVal → Except Unit String
  | .jstr s => .ok (strLower s)
  | _ => .error ()

/-- Python `v.replace(old, new)`: only defined on strings, otherwise raises. -/
def pyReplace (v : JVal) (old new : String) : Except Unit String :=
  match v with
  | .jstr s => .ok (strReplace s old new)
  | _ => .error ()

/-- Escape backslash and single quote, for the string body of Python `repr`.
(The default single-quoted form is modelled.) -/
def escSQ (s : String) : String :=
  ⟨s.data.foldr
    (fun c acc =>
      if c = Char.ofNat 39 then '\\' :: Char.ofNat 39 :: acc
      else if c = '\\' then '\\' :: '\\' :: acc
      else c :: acc) []⟩

mutual

/-- Python `str(v)` (`r = false`) and `repr(v)` (`r = true`). -/
def pyStrRepr (r : Bool) : JVal → String
  | .jstr s => if r then "'" ++ escSQ s ++ "'" else s
  | .jnum n => toString n
  | .jnull => "None"
  | .jarr xs => "[" ++ pyReprList xs ++ "]"
  | .jobj kvs => "\x7b" ++ pyReprObj kvs ++ "\x7d"
termination_by v => sizeOf v

/-- Comma-joined `repr`s of list elements, as Python prints a list. -/
def pyReprList : List JVal → String
  | [] => ""
  | [x] => pyStrRepr true x
  | x :: y :: t => pyStrRepr true x ++ ", " ++ pyReprList (y :: t)
termination_by l => sizeOf l

/-- Comma-joined `'key': value` pairs, as Python prints a dict (keys in these
records are plain strings, rendered with Python's default quoting). -/
def pyReprObj : List (String × JVal) → String
  | [] => ""
  | [(k, v)] => "'" ++ escSQ k ++ "': " ++ pyStrRepr true v
  | (k, v) :: kv2 :: t =>
    "'" ++ escSQ k ++ "': " ++ pyStrRepr true v ++ ", " ++ pyReprObj (kv2 :: t)
termination_by l => sizeOf l

end

/-- Python `str(v)`: scalar cases directly, containers via their element
`repr`s (non-recursive wrapper, so scalar values reduce definitionally). -/
def pyStrOf : JVal → String
  | .jstr s => s
  | .jnum n => toString n
  | .jnull => "None"
  | .jarr xs => "[" ++ pyReprList xs ++ "]"
  | .jobj kvs => "\x7b" ++ pyReprObj kvs ++ "\x7d"

/-- Python `int(v)`: identity on ints, string parsing on strings, raises
(`TypeError`/`ValueError`) otherwise. -/
def pyInt (v : JVal) : Except Unit Int :=
  match v with
  | .jnum n => .ok n
  | .jstr s =>
    match pyIntStr s with
    | some n => .ok n
    | none => .error ()
  | _ => .error ()

/-- Bool view of an `Except` being `.ok`. -/
def exIsOk {ε α : Type} : Except ε α → Bool
  | .ok _ => true
  | .error _ => false

/-! ## `Neo4jKG/kgbuilder.py`: record extraction -/

/-- `BirminghamKG.birmingham_institutions`. -/
def birminghamInstitutions : List String :=
  ["University of Birmingham", "Birmingham Business School",
   "College of Social Sciences", "Birmingham Medical School"]

/-- `any(inst.lower() in affil_name for inst in self.birmingham_institutions)`. -/
def birmAnyMatch (affilName : String) : Bool :=
  birminghamInstitutions.any (fun inst => strHasSub affilName (strLower inst))

/-- The `for affil in affil_list` loop of `is_birmingham_affiliated`:
non-dict entries are skipped, `affil.get('affilname', '').lower()` raises on a
non-string name, the first match returns `True`. -/
def isBirmGo : List JVal → Except Unit Bool
  | [] => .ok false
  | a :: rest =>
    match a with
    | .jobj kvs =>
      match pyLower (dGet kvs "affilname" (.jstr "")) with
      | .error e => .error e
      | .ok nm => if birmAnyMatch nm then .ok true else isBirmGo rest
    | _ => isBirmGo rest

/-- `BirminghamKG.is_birmingham_affiliated(paper)` (kgbuilder.py lines
157-169): `False` without an `affiliation` key; the value is used as a list or
wrapped in a singleton list. -/
def isBirminghamAffiliated (paper : PyDict) : Except Unit Bool :=
  match dLookup paper "affiliation" with
  | none => .ok false
  | some av =>
    isBirmGo (match av with | .jarr xs => xs | v => [v])

/-- The normalized Document of `extract_document_data`. -/
structure DocData where
  document_id : JVal
  title : JVal
  abstract : JVal
  year : Option Int
  citation_count : Int
  doi : JVal
  scopus_id : String

/-- Python `'-' in s`. -/
def strHasDash (s : String) : Bool :=
  s.data.contains '-'

/-- Python `s.split('-')[0]`: the characters before the first dash. -/
def strBeforeDash (s : String) : String :=
  ⟨s.data.takeWhile (fun c => c ≠ '-')⟩

/-- The year block of `extract_document_data` (kgbuilder.py lines 180-186):
`if date_str and '-' in str(date_str): try: year = int(str(date_str).split('-')[0]) except: pass`. -/
def extractYear (dateVal : JVal) : Option Int :=
  if pyTruthy dateVal && strHasDash (pyStrOf dateVal) then
    pyIntStr (strBeforeDash (pyStrOf dateVal))
  else
    none

/-- `BirminghamKG.extract_document_data(paper)` (kgbuilder.py lines 171-196).
`.error ()` models an uncaught exception (`.replace` on a non-string
identifier, `int(...)` on a non-numeric citation count); `.ok none` models the
`return None` for an unresolvable identity. -/
def extractDocumentData (paper : PyDict) : Except Unit (Option DocData) :=
  match pyReplace (dGet paper "dc:identifier" (.jstr "")) "SCOPUS_ID:" "" with
  | .error e => .error e
  | .ok scopusId =>
    if !pyTruthy (if pyTruthy (dGet paper "prism:doi" (.jstr "")) then
        dGet paper "prism:doi" (.jstr "") else .jstr scopusId) then
      .ok none
    else
      match pyInt (dGet paper "citedby-count" (.jnum 0)) with
      | .error e => .error e
      | .ok citation =>
        .ok (some
          { document_id := if pyTruthy (dGet paper "prism:doi" (.jstr "")) then
              dGet paper "prism:doi" (.jstr "") else .jstr scopusId
            title := dGet paper "dc:title" (.jstr "")
            abstract := dGet paper "dc:description" (.jstr "")
            year := extractYear (dGet paper "prism:coverDate" (.jstr ""))
            citation_count := citation
            doi := dGet paper "prism:doi" (.jstr "")
            scopus_id := scopusId })

/-- One author entry of `extract_authors_data`. -/
structure AuthorData where
  author_id : JVal
  full_name : JVal
  orcid : JVal
  sequence : JVal

/-- `BirminghamKG.extract_authors_data(paper)` (kgbuilder.py lines 198-220):
never raises; non-dict entries and entries with a falsy id are skipped. -/
def extractAuthorsData (paper : PyDict) : List AuthorData :=
  match dLookup paper "author" with
  | none => []
  | some av =>
    (match av with | .jarr xs => xs | v => [v]).filterMap (fun a =>
      match a with
      | JVal.jobj kvs =>
        let authorId := dGet kvs "authid" (dGet kvs "@auid" (.jstr ""))
        if pyTruthy authorId then
          some { author_id := authorId
                 full_name := dGet kvs "authname" (dGet kvs "ce:indexed-name" (.jstr ""))
                 orcid := dGet kvs "orcid" (.jstr "")
                 sequence := dGet kvs "@seq" (.jstr "") }
        else none
      | _ => none)

/-- One affiliation entry of `extract_affiliations_data`. -/
structure AffiliationData where
  affiliation_id : JVal
  name : JVal
  city : JVal
  country : JVal

/-- `BirminghamKG.extract_affiliations_data(paper)` (kgbuilder.py lines
222-242): never raises; entries with a falsy `afid` are skipped. -/
def extractAffiliationsData (paper : PyDict) : List AffiliationData :=
  match dLookup paper "affiliation" with
  | none => []
  | some av =>
    (match av with | .jarr xs => xs | v => [v]).filterMap (fun a =>
      match a with
      | JVal.jobj kvs =>
        let affilId := dGet kvs "afid" (.jstr "")
        if pyTruthy affilId then
          some { affiliation_id := affilId
                 name := dGet kvs "affilname" (.jstr "")
                 city := dGet kvs "affiliation-city" (.jstr "")
                 country := dGet kvs "affiliation-country" (.jstr "") }
        else none
      | _ => none)

/-- The publication record of `extract_publication_data`. -/
structure PubData where
  publication_id : JVal
  name : JVal
  issn : JVal
  publisher : JVal

/-- `BirminghamKG.extract_publication_data(paper)` (kgbuilder.py lines
244-258): `None` on a falsy name; the name-derived key lowers the name, which
raises on a non-string value. -/
def extractPublicationData (paper : PyDict) : Except Unit (Option PubData) :=
  let pubName := dGet paper "prism:publicationName" (.jstr "")
  if !pyTruthy pubName then
    .ok none
  else
    let issn := dGet paper "prism:issn" (.jstr "")
    match
      (if pyTruthy issn then .ok issn
       else
         match pyLower pubName with
         | .error e => .error e
         | .ok low => .ok (JVal.jstr ("name_" ++ strReplace low " " "_")) :
        Except Unit JVal) with
    | .error e => .error e
    | .ok pubId =>
      .ok (some
        { publication_id := pubId
          name := pubName
          issn := issn
          publisher := dGet paper "dc:publisher" (.jstr "") })

/-- The per-record data assembled inside the `try` block of
`process_papers` (kgbuilder.py lines 297-347). -/
structure RecData where
  doc : DocData
  authors : List AuthorData
  affiliations : List AffiliationData
  pub : Option PubData

/-- The body of the per-paper `try` block of `process_papers`: extraction of
the document (with `continue` for an unresolvable identity), the authors, the
affiliations and the publication; `.error ()` models any exception reaching
the surrounding `except`. -/
def perRecord (paper : PyDict) : Except Unit (Option RecData) :=
  match extractDocumentData paper with
  | .error e => .error e
  | .ok none => .ok none
  | .ok (some doc) =>
    let authors := extractAuthorsData paper
    let affiliations := extractAffiliationsData paper
    match extractPublicationData paper with
    | .error e => .error e
    | .ok pub =>
      .ok (some { doc := doc, authors := authors, affiliations := affiliations, pub := pub })

/-- The `for paper in birmingham_papers` loop of `process_papers`: a record
whose extraction raises is caught by the per-record `except`, logged, and
skipped; a record with no identity is `continue`d; everything else is
accumulated in order. -/
def loopRecords (recs : List PyDict) : List RecData :=
  recs.foldl
    (fun acc r =>
      match perRecord r with
      | .ok (some d) => acc ++ [d]
      | _ => acc)
    []

/-- The Birmingham pre-filter of `process_papers` (kgbuilder.py line 282):
`[paper for paper in raw_papers if self.is_birmingham_affiliated(paper)]`.
The comprehension is NOT inside a `try`, so an exception from the predicate
propagates. -/
def birminghamFilterE : List PyDict → Except Unit (List PyDict)
  | [] => .ok []
  | r :: rest =>
    match isBirminghamAffiliated r with
    | .error e => .error e
    | .ok b =>
      match birminghamFilterE rest with
      | .error e => .error e
      | .ok t => .ok (if b then r :: t else t)

/-- The pre-processing phase of `process_papers`: Birmingham filter followed
by the per-record extraction loop. -/
def processPapersPre (recs : List PyDict) : Except Unit (List RecData) :=
  match birminghamFilterE recs with
  | .error e => .error e
  | .ok bp => .ok (loopRecords bp)

/-- Projection used to state results about the extracted year: `some y` when
extraction succeeded with a document, `none` otherwise. -/
def yearOfExtract (e : Except Unit (Option DocData)) : Option (Option Int) :=
  match e with
  | .ok (some d) => some d.year
  | _ => none

/-! ## `kgbuilder.py`: CO_AUTHOR counting and writing (process_papers lines
339-347 and 446-467) -/

/-- The ordered co-author pairs `(authors[i], authors[j])`, `i < j`, emitted
for one paper (`for i, author1 in enumerate(authors_data): for author2 in
authors_data[i+1:]`), guarded by `len(authors_data) > 1`. -/
def orderedPairs : List String → List (String × String)
  | [] => []
  | a :: rest => rest.map (fun b => (a, b)) ++ orderedPairs rest

/-- Co-author relationships of one processed paper (kgbuilder.py lines
339-347); the originating document id is not part of the counting key. -/
def coAuthorRelsOfPaper (authors : List String) : List (String × String) :=
  if 1 < authors.length then orderedPairs authors else []

/-- All co-author relationships of a run, taking each processed paper by its
extracted author-id sequence. -/
def coAuthorRels (papersAuthors : List (List String)) : List (String × String) :=
  papersAuthors.flatMap coAuthorRelsOfPaper

/-- Lexicographic code-point comparison of char lists (Python string `<=`). -/
def chListLe : List Char → List Char → Bool
  | [], _ => true
  | _ :: _, [] => false
  | a :: as, b :: bs =>
    if a.toNat < b.toNat then true
    else if b.toNat < a.toNat then false
    else chListLe as bs

/-- Python `s1 <= s2` on strings (code-point lexicographic order). -/
def strLeB (a b : String) : Bool :=
  chListLe a.data b.data

/-- `tuple(sorted([rel['author1_id'], rel['author2_id']]))`. -/
def sortPair (p : String × String) : String × String :=
  if strLeB p.1 p.2 then p else (p.2, p.1)

/-- `co_author_count[key] += 1` over all relationships (`defaultdict(int)`). -/
def coAuthorCount (rels : List (String × String)) : String × String → Nat :=
  rels.foldl
    (fun m r => fun p => if p = sortPair r then m p + 1 else m p)
    (fun _ => 0)

/-- Keep the first occurrence of each element (dict-key insertion order);
`seen` accumulates the keys already emitted. -/
def dedupPairsGo (seen : List (String × String)) :
    List (String × String) → List (String × String)
  | [] => []
  | p :: t =>
    if p ∈ seen then dedupPairsGo seen t else p :: dedupPairsGo (p :: seen) t

/-- Key order of `co_author_count.items()`: dict insertion order, i.e. first
occurrence of each sorted pair. -/
def coAuthorKeys (rels : List (String × String)) : List (String × String) :=
  dedupPairsGo [] (rels.map sortPair)

/-- `co_author_final = [{'author1_id': key[0], 'author2_id': key[1], 'count':
count} for key, count in co_author_count.items()]`. -/
def coAuthorFinal (papersAuthors : List (List String)) : List ((String × String) × Nat) :=
  let rels := coAuthorRels papersAuthors
  (coAuthorKeys rels).map (fun k => (k, coAuthorCount rels k))

/-- Persisted CO_AUTHOR edges, keyed by the sorted author pair (the Cypher
`MERGE (a1)-[co:CO_AUTHOR]-(a2)` is undirected; keys written by the builder
are already sorted). -/
abbrev EdgeDB := String × String → Option Nat

/-- The CO_AUTHOR write of `process_papers` (kgbuilder.py lines 461-467):
`MERGE (a1)-[co:CO_AUTHOR]-(a2) SET co.collaboration_count = rel.count` — the
edge is created if absent and its weight is unconditionally SET to the count
computed from the current run. -/
def writeCoAuthor (db : EdgeDB) (final : List ((String × String) × Nat)) : EdgeDB :=
  final.foldl
    (fun db kc => fun p => if p = kc.1 then some kc.2 else db p)
    db

/-- Modelled from the spec: §4.3 requires the CO_AUTHOR writer to distinguish
first-creation of an edge (set the weight) from re-observation (increment the
existing `collaboration_count` by the newly observed count).  This
increment-on-re-merge writer does not exist in the source, which issues an
unconditional SET; it follows the spec's words and is used only for
comparison. -/
def writeCoAuthorSpec (db : EdgeDB) (final : List ((String × String) × Nat)) : EdgeDB :=
  final.foldl
    (fun db kc => fun p =>
      if p = kc.1 then
        match db kc.1 with
        | some w => some (w + kc.2)
        | none => some kc.2
      else db p)
    db

/-- One ingestion run's CO_AUTHOR effect on the store (source semantics). -/
def processCoAuthorRun (db : EdgeDB) (papersAuthors : List (List String)) : EdgeDB :=
  writeCoAuthor db (coAuthorFinal papersAuthors)

/-- One ingestion run's CO_AUTHOR effect under the spec's accumulate
contract. -/
def processCoAuthorRunSpec (db : EdgeDB) (papersAuthors : List (List String)) : EdgeDB :=
  writeCoAuthorSpec db (coAuthorFinal papersAuthors)

/-! ## `kgbuilder.py`: `execute_query` retry loop (lines 62-76) -/

/-- Outcome of one attempt of the underlying store operation: success, an
exception of the transient class (`ServiceUnavailable`, `TransientError`,
`NotALeader`), or any other exception. -/
inductive QueryOutcome (α : Type) where
  | ok (r : α)
  | transient
  | fatal

/-- Error class surfaced by `execute_query`. -/
inductive QError where
  | transient
  | fatal
deriving DecidableEq

/-- Result of `execute_query`: the outcome, the number of attempts made, and
the total seconds slept (`time.sleep(5)` between attempts). -/
structure ExecResult (α : Type) where
  result : Except QError α
  attempts : Nat
  sleepSeconds : Nat

/-- `for attempt in range(3)` of `execute_query`, with the loop body: run the
operation; on a transient-class exception sleep 5s and retry while
`attempt < 2`, else re-raise.  The attempt indices are passed as the list
`[0, 1, 2]`; the `[]` case is unreachable for `range(3)` since the last
iteration always returns or raises. -/
def execGo (behav : Nat → QueryOutcome α) : List Nat → Except QError α × Nat × Nat
  | [] => (.error .transient, 0, 0)
  | a :: rest =>
    match behav a with
    | .ok r => (.ok r, 1, 0)
    | .fatal => (.error .fatal, 1, 0)
    | .transient =>
      if a < 2 then
        let (res, n, s) := execGo behav rest
        (res, n + 1, s + 5)
      else
        (.error .transient, 1, 0)

/-- `BirminghamKG.execute_query` retry behaviour, abstracted over the store's
per-attempt outcomes. -/
def executeQuery (behav : Nat → QueryOutcome α) : ExecResult α :=
  let (r, n, s) := execGo behav [0, 1, 2]
  { result := r, attempts := n, sleepSeconds := s }

/-! ## Exact fractions (kernel-reducible model of the float values) -/

/-- An exact (not necessarily reduced) fraction.  The trend slopes and growth
ratios computed by the source as Python floats are modelled by the exact
rational value `num / den`; every fraction built by the embedding has a
positive denominator. -/
structure Frac where
  num : Int
  den : Int
deriving DecidableEq

/-- The rational value of a fraction. -/
def fracVal (f : Frac) : ℚ := (f.num : ℚ) / (f.den : ℚ)

/-- Value comparison `a < b` for fractions with positive denominators. -/
def fracLtB (a b : Frac) : Bool :=
  decide (a.num * b.den < b.num * a.den)

/-- The fraction `0`. -/
def fracZero : Frac := ⟨0, 1⟩

/-! ## Sorting helpers (Python `sorted`, `list.sort(reverse=True)`) -/

/-- Insert into an ascending-sorted list of ints. -/
def insSortedInt (x : Int) : List Int → List Int
  | [] => [x]
  | y :: t => if x ≤ y then x :: y :: t else y :: insSortedInt x t

/-- Python `sorted` on a list of ints (ascending). -/
def sortInt (l : List Int) : List Int :=
  l.foldr insSortedInt []

/-- Stable descending insertion, keyed by the third component (growth rate):
models the stability of Python `list.sort(key=lambda x: x[2], reverse=True)`. -/
def insDescGrowth (x : String × Nat × Frac) :
    List (String × Nat × Frac) → List (String × Nat × Frac)
  | [] => [x]
  | y :: t => if fracLtB y.2.2 x.2.2 then x :: y :: t else y :: insDescGrowth x t

/-- `emerging_keywords.sort(key=lambda x: x[2], reverse=True)`. -/
def sortDescGrowth (l : List (String × Nat × Frac)) : List (String × Nat × Frac) :=
  l.foldr insDescGrowth []

/-- Insert into a list modelling Python dict-key insertion order / an
insertion-ordered set: append when absent. -/
def setIns (l : List String) (x : String) : List String :=
  if x ∈ l then l else l ++ [x]

/-- `setIns` for int keys (`yearly_data` keys). -/
def setInsInt (l : List Int) (x : Int) : List Int :=
  if x ∈ l then l else l ++ [x]

/-! ## `RAG/collaboration.py`: analyze_collaboration_network -/

/-- A paper record returned by `semantic_search_with_authors`, as consumed by
`CollaborationTrendAnalyzer` (title, authors, main affiliation, year,
citations). -/
structure TPaper where
  authors : List String
  main_affiliation : String
  year : Option Int
  citations : Int
  title : String
deriving DecidableEq

/-- The `birmingham_affiliations` fragment list of `collaboration.py` (both
functions use the same five lowercase fragments). -/
def ragBirmFragments : List String :=
  ["university of birmingham", "birmingham business school",
   "college of social sciences", "birmingham medical school",
   "university of birmingham dubai"]

/-- `any(bham in affiliation for bham in birmingham_affiliations)` with
`affiliation = paper.get('main_affiliation', '').lower()`. -/
def ragBirmMatch (affiliation : String) : Bool :=
  ragBirmFragments.any (fun bham => strHasSub (strLower affiliation) bham)

/-- The paper filter of `analyze_collaboration_network` (collaboration.py
line 46): Birmingham affiliation and more than one listed author. -/
def cQual (p : TPaper) : Bool :=
  ragBirmMatch p.main_affiliation && decide (1 < p.authors.length)

/-- `author_paper_count[author] += 1` (`defaultdict(int)`). -/
def bump1 (m : String → Nat) (a : String) : String → Nat :=
  fun x => if x = a then m x + 1 else m x

/-- The `for author in authors: if author:` counting loop of one qualifying
paper (collaboration.py lines 48-50). -/
def countAuthorsPaper (m : String → Nat) (authors : List String) : String → Nat :=
  authors.foldl (fun m a => if a ≠ "" then bump1 m a else m) m

/-- Key insertion order of `author_paper_count` over one qualifying paper. -/
def seenAuthorsPaper (seen : List String) (authors : List String) : List String :=
  authors.foldl (fun s a => if a ≠ "" then setIns s a else s) seen

/-- `collaboration_graph[a][b] += 1` (nested `defaultdict(int)`). -/
def bump2 (m : String → String → Nat) (a b : String) : String → String → Nat :=
  fun x y => if x = a ∧ y = b then m x y + 1 else m x y

/-- Inner loop `for author2 in authors[i+1:]` for a fixed `author1`
(collaboration.py lines 62-65): both directions are incremented when both
names are truthy. -/
def addPairsFrom (m : String → String → Nat) (a : String)
    (rest : List String) : String → String → Nat :=
  rest.foldl
    (fun m b => if a ≠ "" ∧ b ≠ "" then bump2 (bump2 m a b) b a else m)
    m

/-- Outer loop `for i, author1 in enumerate(authors)` building collaboration
edges of one qualifying paper. -/
def addPairs (m : String → String → Nat) : List String → String → String → Nat
  | [] => m
  | a :: rest => addPairs (addPairsFrom m a rest) rest

/-- Accumulator state of the paper loop of `analyze_collaboration_network`:
per-author paper counts (with dict-key order) and the pairwise co-occurrence
counts. -/
structure CollabState where
  cnt : String → Nat
  seen : List String
  collab : String → String → Nat

/-- Processing of one search-result paper (collaboration.py lines 38-65). -/
def collabStep (st : CollabState) (p : TPaper) : CollabState :=
  if cQual p then
    { cnt := countAuthorsPaper st.cnt p.authors
      seen := seenAuthorsPaper st.seen p.authors
      collab := addPairs st.collab p.authors }
  else st

/-- The full paper loop of `analyze_collaboration_network`. -/
def collabFold (papers : List TPaper) : CollabState :=
  papers.foldl collabStep { cnt := fun _ => 0, seen := [], collab := fun _ _ => 0 }

/-- Membership in `active_authors = {author for author, count in
author_paper_count.items() if count >= min_papers}` — an author is a dict key
iff its count is positive. -/
def isActive (papers : List TPaper) (minPapers : Nat) (a : String) : Bool :=
  decide (0 < (collabFold papers).cnt a) && decide (minPapers ≤ (collabFold papers).cnt a)

/-- Edge presence in the NetworkX graph built in Step 4 (collaboration.py
lines 74-79): both endpoints active and a positive accumulated co-occurrence
count (the iterated dict keys all carry positive counts). -/
def hasEdge (papers : List TPaper) (minPapers : Nat) (a b : String) : Bool :=
  isActive papers minPapers a && isActive papers minPapers b &&
    decide (0 < (collabFold papers).collab a b)

/-- Edge weight set by `G.add_edge(author1, author2, weight=weight)`. -/
def edgeWeight (papers : List TPaper) (a b : String) : Nat :=
  (collabFold papers).collab a b

/-- The in-memory collaboration graph: node list (active authors) and
adjacency. -/
structure CGraph where
  nodes : List String
  adj : String → String → Bool

/-- The NetworkX graph `G` of `analyze_collaboration_network`: one node per
active author, edges per `hasEdge`. -/
def buildCollabGraph (papers : List TPaper) (minPapers : Nat) : CGraph :=
  { nodes := (collabFold papers).seen.filter (fun a => isActive papers minPapers a)
    adj := fun a b => hasEdge papers minPapers a b }

/-- One round of reachability expansion over the node list. -/
def reachStep (adj : String → String → Bool) (nodes : List String)
    (cur : List String) : List String :=
  cur ++ nodes.filter (fun v => !(cur.contains v) && cur.any (fun u => adj u v))

/-- Iterated reachability expansion. -/
def iterReach (adj : String → String → Bool) (nodes : List String) :
    Nat → List String → List String
  | 0, cur => cur
  | n + 1, cur => iterReach adj nodes n (reachStep adj nodes cur)

/-- `nx.is_connected(G)` for the built graph: every node is reachable from
the first node.  (The source only evaluates it on non-empty graphs; the value
on an empty node list is irrelevant to the call sites.) -/
def isConnB (G : CGraph) : Bool :=
  match G.nodes with
  | [] => false
  | a :: _ => G.nodes.all (fun v => (iterReach G.adj G.nodes G.nodes.length [a]).contains v)

/-- The `centrality_metrics` dict of Step 5 (collaboration.py lines 82-88);
the four networkx centrality computations are external and passed as
parameters. -/
structure CentralityMetrics where
  degree : List (String × ℚ)
  betweenness : List (String × ℚ)
  closeness : List (String × ℚ)
  eigenvector : List (String × ℚ)

/-- Step 5 of `analyze_collaboration_network`: when the graph has nodes,
degree/betweenness/closeness are computed unconditionally and eigenvector
centrality only `if nx.is_connected(G) or len(G.nodes) == 1`, else the empty
dict; with no nodes, `centrality_metrics = {}` (modelled as `none`). -/
def networkMetrics (degF betF cloF eigF : CGraph → List (String × ℚ))
    (papers : List TPaper) (minPapers : Nat) : Option CentralityMetrics :=
  let G := buildCollabGraph papers minPapers
  if 0 < G.nodes.length then
    some { degree := degF G
           betweenness := betF G
           closeness := cloF G
           eigenvector := if isConnB G || G.nodes.length == 1 then eigF G else [] }
  else none

/-- Closed form: number of qualifying papers listing author `x`. -/
def numQual (papers : List TPaper) (x : String) : Nat :=
  (papers.filter (fun p => cQual p && decide (x ∈ p.authors))).length

/-- Closed form: number of qualifying papers listing both `x` and `y`. -/
def numBoth (papers : List TPaper) (x y : String) : Nat :=
  (papers.filter (fun p => cQual p && decide (x ∈ p.authors) && decide (y ∈ p.authors))).length

/-! ## `RAG/collaboration.py`: analyze_research_trends -/

/-- The fixed `research_keywords` vocabulary of `extract_trend_keywords`
(collaboration.py lines 292-301). -/
def researchKeywords : List String :=
  ["deep learning", "machine learning", "neural network", "artificial intelligence",
   "computer vision", "natural language processing", "reinforcement learning",
   "transformer", "attention", "convolutional", "lstm", "gru",
   "classification", "segmentation", "detection", "prediction",
   "medical imaging", "healthcare", "clinical", "diagnosis",
   "covid", "cancer", "tumor", "disease",
   "interpretable", "explainable", "federated", "privacy",
   "robust", "adversarial", "uncertainty", "ensemble"]

/-- `CollaborationTrendAnalyzer.extract_trend_keywords(title)`: the vocabulary
entries occurring in the lowered title, in vocabulary order, one hit per
keyword. -/
def extractTrendKeywords (title : String) : List String :=
  researchKeywords.filter (fun kw => strHasSub (strLower title) kw)

/-- Keywords of a paper as appended to `yearly_data`/`keyword_trends`: the
caller passes `paper.get('title', '').lower()`. -/
def kwsOf (p : TPaper) : List String :=
  extractTrendKeywords (strLower p.title)

/-- The trend qualification test (collaboration.py line 221):
`if is_birmingham and year and year >= start_year` — `year` must be present,
truthy (non-zero) and at least the start year. -/
def tQual (startYear : Int) (p : TPaper) : Bool :=
  ragBirmMatch p.main_affiliation &&
    (match p.year with
     | none => false
     | some y => decide (y ≠ 0) && decide (startYear ≤ y))

/-- One year's aggregate in `yearly_data` (`papers`, `citations`, the author
set — modelled as an insertion-ordered duplicate-free list — and the keyword
bag). -/
structure YearRec where
  papers : Nat
  citations : Int
  authors : List String
  keywords : List String
deriving DecidableEq

/-- Accumulator state of the paper loop of `analyze_research_trends`:
`yearly_data` (with key order) and `keyword_trends` (with key order). -/
structure TrendState where
  ydKeys : List Int
  yd : Int → YearRec
  kwKeys : List String
  kw : String → Int → Nat

/-- `keyword_trends[keyword][year] += 1` over the keywords of one paper. -/
def bumpKws (m : String → Int → Nat) (kws : List String) (y : Int) :
    String → Int → Nat :=
  kws.foldl (fun m k => fun k2 z => if k2 = k ∧ z = y then m k2 z + 1 else m k2 z) m

/-- Processing of one search-result paper in `analyze_research_trends`
(collaboration.py lines 214-237). -/
def trendStep (startYear : Int) (st : TrendState) (p : TPaper) : TrendState :=
  match p.year with
  | none => st
  | some y =>
    if tQual startYear p then
      { ydKeys := setInsInt st.ydKeys y
        yd := fun z =>
          if z = y then
            { papers := (st.yd y).papers + 1
              citations := (st.yd y).citations + p.citations
              authors := p.authors.foldl setIns (st.yd y).authors
              keywords := (st.yd y).keywords ++ kwsOf p }
          else st.yd z
        kwKeys := (kwsOf p).foldl setIns st.kwKeys
        kw := bumpKws st.kw (kwsOf p) y }
    else st

/-- The full paper loop of `analyze_research_trends`. -/
def trendFold (startYear : Int) (papers : List TPaper) : TrendState :=
  papers.foldl (trendStep startYear)
    { ydKeys := [], yd := fun _ => ⟨0, 0, [], []⟩, kwKeys := [], kw := fun _ _ => 0 }

/-- `years = sorted([y for y in yearly_data.keys() if y >= start_year])`. -/
def tYears (startYear : Int) (papers : List TPaper) : List Int :=
  sortInt (((trendFold startYear papers).ydKeys).filter (fun y => startYear ≤ y))

/-- Exact least-squares slope of `np.polyfit(range(n), ys, 1)[0]`, over the
x-values `0, …, n-1`, as the exact fraction
`(n·Σxy − Σx·Σy) / (n·Σx² − (Σx)²)` (the denominator is positive for n ≥ 2). -/
def olsSlope (ys : List Int) : Frac :=
  let n : Int := ys.length
  let xs : List Int := (List.range ys.length).map (fun i => (i : Int))
  let sx := xs.sum
  let sy := ys.sum
  let sxy := ((xs.zip ys).map (fun p => p.1 * p.2)).sum
  let sxx := (xs.map (fun x => x * x)).sum
  ⟨n * sxy - sx * sy, n * sxx - sx * sx⟩

/-- The `trend_analysis` dict built when more than one qualifying year exists
(collaboration.py lines 243-263). -/
structure TrendInfo where
  years : List Int
  papersByYear : List Nat
  citationsByYear : List Int
  paperTrend : Frac
  citationTrend : Frac
  totalPapers : Nat
  totalCitations : Int
deriving DecidableEq

/-- The full result of `analyze_research_trends`: `yearly_data` (keys +
mapping), `trend_analysis` (`none` models the empty dict), `keyword_trends`
(keys + mapping), and the top-10 emerging keywords. -/
structure TrendResult where
  yearlyKeys : List Int
  yearlyData : Int → YearRec
  trendAnalysis : Option TrendInfo
  keywordKeys : List String
  keywordTrends : String → Int → Nat
  emergingKeywords : List (String × Nat × Frac)

/-- `CollaborationTrendAnalyzer.analyze_research_trends(research_area,
years_back)` (collaboration.py lines 185-286), with `datetime.now().year`
passed explicitly as `currentYear` and the retrieved result set as `papers`. -/
def analyzeResearchTrends (currentYear yearsBack : Int) (papers : List TPaper) :
    TrendResult :=
  let sy := currentYear - yearsBack
  let st := trendFold sy papers
  let years := tYears sy papers
  let ta : Option TrendInfo :=
    if 1 < years.length then
      let pby := years.map (fun y => (st.yd y).papers)
      let cby := years.map (fun y => (st.yd y).citations)
      some { years := years
             papersByYear := pby
             citationsByYear := cby
             paperTrend :=
               if 2 < pby.length then olsSlope (pby.map (fun n => (n : Int))) else fracZero
             citationTrend :=
               if 2 < pby.length then olsSlope cby else fracZero
             totalPapers := pby.sum
             totalCitations := cby.sum }
    else none
  let emer : List (String × Nat × Frac) :=
    if 3 ≤ years.length then
      let recentYears := years.drop (years.length - 3)
      let earlierYears := years.take (years.length - 3)
      st.kwKeys.filterMap (fun k =>
        let r := (recentYears.map (fun y => st.kw k y)).sum
        let e := if earlierYears.isEmpty then 1 else (earlierYears.map (fun y => st.kw k y)).sum
        if 2 ≤ r ∧ e < r then
          some (k, r, (⟨(r : Int) - (e : Int), ((max e 1 : Nat) : Int)⟩ : Frac))
        else none)
    else []
  { yearlyKeys := st.ydKeys
    yearlyData := st.yd
    trendAnalysis := ta
    keywordKeys := st.kwKeys
    keywordTrends := st.kw
    emergingKeywords := (sortDescGrowth emer).take 10 }

/-- The growing/stable classification of `_analyze_trends`
(LLMpoweredRAG.py line 162): `'growing' if paper_trend > 0.1 else 'stable'`
(exact comparison with 1/10; all trend fractions have positive
denominators). -/
def trendLabel (t : Frac) : String :=
  if fracLtB ⟨1, 10⟩ t then "growing" else "stable"

/-- Bool test that the paper's year lies in the given year window. -/
def yearIn (ys : List Int) (p : TPaper) : Bool :=
  match p.year with
  | some y => decide (y ∈ ys)
  | none => false

/-- Closed form: number of qualifying papers whose year lies in `ys` and
whose title contains the keyword `k`. -/
def kwWindowCount (sy : Int) (papers : List TPaper) (ys : List Int) (k : String) : Nat :=
  (papers.filter (fun p => tQual sy p && yearIn ys p && decide (k ∈ kwsOf p))).length

/-- Modelled from the spec: the claim's growth formula with each keyword's
earlier-count floored at 1 before use — `(recent − earlier) / max(earlier, 1)`
with `earlier = max(raw earlier count, 1)`.  The source floors the earlier
count only when there are no earlier years; this definition follows the
claim's words for comparison. -/
def specFlooredGrowth (recent rawEarlier : Nat) : Frac :=
  ⟨(recent : Int) - ((max rawEarlier 1 : Nat) : Int),
   ((max (max rawEarlier 1) 1 : Nat) : Int)⟩

/-- Modelled from the spec: "Year is parsed from a date-like string's leading
YYYY segment" — the integer value of the leading dash-segment of the string
when that segment is four digits, else `none`.  Used to compare the claim's
reading with `extractYear`. -/
def specLeadingYearSegment (s : String) : Option Int :=
  let seg := strBeforeDash s
  if seg.data.length = 4 && seg.data.all Char.isDigit then pyIntStr seg else none

/-! ## Closed forms and concrete inputs used by the theorems -/

/-- Contribution of the ordered occurrence pair `(a, b)` to the collaboration
count entry `(x, y)`: the code increments both `[a][b]` and `[b][a]`. -/
def pairContrib (a b x y : String) : Nat :=
  (if x = a ∧ y = b then 1 else 0) + (if x = b ∧ y = a then 1 else 0)

/-- Closed form of `addPairsFrom`: total contribution of the pairs `(a, b)`
for `b` in `rest` to entry `(x, y)`. -/
def rowCnt (a : String) : List String → String → String → Nat
  | [], _, _ => 0
  | b :: rest, x, y =>
    (if a ≠ "" ∧ b ≠ "" then pairContrib a b x y else 0) + rowCnt a rest x y

/-- Closed form of `addPairs`: total contribution of one author list to the
collaboration count entry `(x, y)`. -/
def pairCnt : List String → String → String → Nat
  | [], _, _ => 0
  | a :: rest, x, y => rowCnt a rest x y + pairCnt rest x y

/-- Paper-record constructor for the concrete test inputs. -/
def mkTP (aff : String) (y : Int) (t : String) : TPaper :=
  { authors := [], main_affiliation := aff, year := some y, citations := 0, title := t }

/-- Affiliation string used by the concrete inputs. -/
def ubAff : String := "University of Birmingham"

/-- Two qualifying years with paper counts `[2, 8]`. -/
def c2twoPapers : List TPaper :=
  List.replicate 2 (mkTP ubAff 2023 "") ++ List.replicate 8 (mkTP ubAff 2024 "")

/-- The `trend_analysis` computed by the source on `c2twoPapers`. -/
def c2twoTI : TrendInfo :=
  { years := [2023, 2024], papersByYear := [2, 8], citationsByYear := [0, 0],
    paperTrend := fracZero, citationTrend := fracZero,
    totalPapers := 10, totalCitations := 0 }

/-- Five qualifying years with the spec's growing series `[2, 2, 3, 5, 8]`. -/
def c2growPapers : List TPaper :=
  List.replicate 2 (mkTP ubAff 2020 "") ++ List.replicate 2 (mkTP ubAff 2021 "") ++
  List.replicate 3 (mkTP ubAff 2022 "") ++ List.replicate 5 (mkTP ubAff 2023 "") ++
  List.replicate 8 (mkTP ubAff 2024 "")

/-- The `trend_analysis` computed by the source on `c2growPapers`. -/
def c2growTI : TrendInfo :=
  { years := [2020, 2021, 2022, 2023, 2024], papersByYear := [2, 2, 3, 5, 8],
    citationsByYear := [0, 0, 0, 0, 0], paperTrend := ⟨75, 50⟩,
    citationTrend := ⟨0, 50⟩, totalPapers := 20, totalCitations := 0 }

/-- Five qualifying years with the spec's flat series `[3, 3, 3, 3, 3]`. -/
def c2flatPapers : List TPaper :=
  List.replicate 3 (mkTP ubAff 2020 "") ++ List.replicate 3 (mkTP ubAff 2021 "") ++
  List.replicate 3 (mkTP ubAff 2022 "") ++ List.replicate 3 (mkTP ubAff 2023 "") ++
  List.replicate 3 (mkTP ubAff 2024 "")

/-- The `trend_analysis` computed by the source on `c2flatPapers`. -/
def c2flatTI : TrendInfo :=
  { years := [2020, 2021, 2022, 2023, 2024], papersByYear := [3, 3, 3, 3, 3],
    citationsByYear := [0, 0, 0, 0, 0], paperTrend := ⟨0, 50⟩,
    citationTrend := ⟨0, 50⟩, totalPapers := 15, totalCitations := 0 }

/-- Four qualifying years; "transformer" occurs in the three recent years and
never in the earlier year (raw earlier-count 0). -/
def c5rawPapers : List TPaper :=
  [mkTP ubAff 2020 "", mkTP ubAff 2021 "transformer", mkTP ubAff 2022 "transformer",
   mkTP ubAff 2023 "transformer"]

/-- Four qualifying years realising the spec's example: recent counts
`{transformer: 3, attention: 2}`, earlier counts
`{transformer: 1, attention: 5}`. -/
def c5abPapers : List TPaper :=
  [mkTP ubAff 2020 "transformer"] ++ List.replicate 5 (mkTP ubAff 2020 "attention") ++
  [mkTP ubAff 2021 "transformer", mkTP ubAff 2022 "transformer", mkTP ubAff 2023 "transformer",
   mkTP ubAff 2021 "attention", mkTP ubAff 2022 "attention"]

/-- One qualifying year only (for the degenerate-trend witness). -/
def c10papers : List TPaper := [mkTP ubAff 2024 ""]

/-- A qualifying two-author paper (authors Ann, Bob). -/
def pAB : TPaper :=
  { authors := ["Ann", "Bob"], main_affiliation := ubAff, year := some 2020,
    citations := 0, title := "" }

/-- A qualifying two-author paper (authors Cid, Dee). -/
def pCD : TPaper :=
  { authors := ["Cid", "Dee"], main_affiliation := ubAff, year := some 2020,
    citations := 0, title := "" }

/-- Input producing a 4-node collaboration graph with two disconnected
components (Ann—Bob, Cid—Dee). -/
def c6papers : List TPaper := [pAB, pAB, pCD, pCD]

/-- Input producing a 2-node, 1-edge collaboration graph. -/
def c8papers : List TPaper := [pAB, pAB]

/-- A record whose citation count is non-numeric: `int('abc')` raises inside
`extract_document_data`. -/
def c3badRec : PyDict := [("prism:doi", .jstr "10.1/x"), ("citedby-count", .jstr "abc")]

/-- A record whose affiliation name is not a string: `.lower()` raises inside
`is_birmingham_affiliated`. -/
def c3affRec : PyDict := [("affiliation", .jobj [("affilname", .jnum 5)])]

/-- A well-formed record with a Birmingham affiliation. -/
def c3goodRec : PyDict :=
  [("prism:doi", .jstr "10.1/ok"),
   ("affiliation", .jobj [("afid", .jstr "60019702"),
                          ("affilname", .jstr "University of Birmingham")])]

/-- A Birmingham-affiliated record whose citation count is malformed (skipped
by the per-record handler of `process_papers`). -/
def c3badBirmRec : PyDict :=
  [("prism:doi", .jstr "10.1/bad"),
   ("citedby-count", .jstr "abc"),
   ("affiliation", .jobj [("affilname", .jstr "University of Birmingham")])]

/-- Record batch for the malformed-record witness. -/
def c3recs : List PyDict := [c3goodRec, c3badBirmRec]

/-- A record whose cover date has no dash: the source leaves the year null. -/
def c4dashless : PyDict := [("prism:doi", .jstr "d1"), ("prism:coverDate", .jstr "2024")]

/-- A record with a normal dashed cover date. -/
def c4recW : PyDict := [("prism:doi", .jstr "d2"), ("prism:coverDate", .jstr "2024-05-01")]

/-- The document extracted from `c4recW`. -/
def c4docW : DocData :=
  { document_id := .jstr "d2", title := .jstr "", abstract := .jstr "",
    year := some 2024, citation_count := 0, doi := .jstr "d2", scopus_id := "" }

/-- Degree-like placeholder centrality used to instantiate the external
networkx parameters in witnesses. -/
def unitCent (G : CGraph) : List (String × ℚ) :=
  G.nodes.map (fun v => (v, 1))

/-! ## Theorems -/

/-- C1: the CO_AUTHOR write of `process_papers` does NOT accumulate weights
across runs.  Run 1 ingests a document authored by A and B; run 2 ingests a
different document authored by the same pair.  The source's unconditional
`SET co.collaboration_count = rel.count` leaves the weight at 1 (the
current-run count), whereas the spec's required accumulate semantics (first
creation sets, re-observation increments — `writeCoAuthorSpec`) yields 2.
Re-ingesting the same corpus twice does leave the weight at the single-run
value, but only because the overwrite recomputes it, not by accumulation. -/
theorem c1_coauthor_weight_overwritten :
    processCoAuthorRun (fun _ => none) [["A", "B"]] ("A", "B") = some 1 ∧
    processCoAuthorRun (processCoAuthorRun (fun _ => none) [["A", "B"]])
      [["A", "B"]] ("A", "B") = some 1 ∧
    processCoAuthorRunSpec (processCoAuthorRunSpec (fun _ => none) [["A", "B"]])
      [["A", "B"]] ("A", "B") = some 2 ∧
    (some 1 : Option Nat) ≠ some 2 := by
  refine ⟨by decide, by decide, by decide, by decide⟩

/-- C7: `execute_query` makes at most 3 attempts; a non-transient error
propagates immediately without retry or delay; transient errors are retried
with a fixed 5-second sleep between attempts; after the third consecutive
transient failure the transient error is raised to the caller. -/
theorem c7_execute_query_retry {α : Type} (behav : Nat → QueryOutcome α) :
    (executeQuery behav).attempts ≤ 3 ∧
    (behav 0 = .fatal → executeQuery behav = ⟨.error .fatal, 1, 0⟩) ∧
    (behav 0 = .transient → behav 1 = .fatal →
      executeQuery behav = ⟨.error .fatal, 2, 5⟩) ∧
    (behav 0 = .transient → behav 1 = .transient → behav 2 = .transient →
      executeQuery behav = ⟨.error .transient, 3, 10⟩) ∧
    (∀ r, behav 0 = .ok r → executeQuery behav = ⟨.ok r, 1, 0⟩) ∧
    (∀ r, behav 0 = .transient → behav 1 = .ok r →
      executeQuery behav = ⟨.ok r, 2, 5⟩) ∧
    (∀ r, behav 0 = .transient → behav 1 = .transient → behav 2 = .ok r →
      executeQuery behav = ⟨.ok r, 3, 10⟩) := by
  cases h0 : behav 0 <;> cases h1 : behav 1 <;> cases h2 : behav 2 <;>
    simp_all [executeQuery, execGo]

/-- C7 witness: three consecutive transient failures exhaust the retry bound
of 3 attempts with two 5-second delays and surface the transient error. -/
theorem c7_execute_query_retry_witness :
    executeQuery (fun _ => (QueryOutcome.transient : QueryOutcome Nat)) =
      ⟨.error .transient, 3, 10⟩ :=
  (c7_execute_query_retry (fun _ => (QueryOutcome.transient : QueryOutcome Nat))).2.2.2.1
    rfl rfl rfl

/-- C6: in `analyze_collaboration_network`, when the built graph has more
than one node and is not connected, eigenvector centrality is the empty
mapping; when it is connected or has exactly one node, eigenvector centrality
is the external computation's result; degree, betweenness and closeness are
computed in both cases (graph non-empty). -/
theorem c6_eigenvector_guard (degF betF cloF eigF : CGraph → List (String × ℚ))
    (papers : List TPaper) (m : Nat) :
    (1 < (buildCollabGraph papers m).nodes.length →
      isConnB (buildCollabGraph papers m) = false →
      networkMetrics degF betF cloF eigF papers m =
        some { degree := degF (buildCollabGraph papers m),
               betweenness := betF (buildCollabGraph papers m),
               closeness := cloF (buildCollabGraph papers m),
               eigenvector := [] }) ∧
    ((isConnB (buildCollabGraph papers m) = true ∨
        (buildCollabGraph papers m).nodes.length = 1) →
      networkMetrics degF betF cloF eigF papers m =
        some { degree := degF (buildCollabGraph papers m),
               betweenness := betF (buildCollabGraph papers m),
               closeness := cloF (buildCollabGraph papers m),
               eigenvector := eigF (buildCollabGraph papers m) }) := by
  constructor
  · intro h1 h2
    have hpos : 0 < (buildCollabGraph papers m).nodes.length := by omega
    have hne : ((buildCollabGraph papers m).nodes.length == 1) = false := by
      simp only [beq_eq_false_iff_ne]
      omega
    simp [networkMetrics, hpos, h2, hne]
  · intro h
    have hpos : 0 < (buildCollabGraph papers m).nodes.length := by
      rcases h with h | h
      · rcases hn : (buildCollabGraph papers m).nodes with _ | ⟨a, t⟩
        · simp [isConnB, hn] at h
        · simp [hn]
      · omega
    rcases h with h | h
    · simp [networkMetrics, hpos, h]
    · have : ((buildCollabGraph papers m).nodes.length == 1) = true := by
        simp [h]
      simp [networkMetrics, hpos, this]

/-- C6 witness: on a concrete result set whose collaboration graph has four
nodes in two disconnected components, eigenvector centrality is empty while
the other three centralities are computed. -/
theorem c6_eigenvector_guard_witness :
    (1 < (buildCollabGraph c6papers 2).nodes.length) ∧
    isConnB (buildCollabGraph c6papers 2) = false ∧
    networkMetrics unitCent unitCent unitCent unitCent c6papers 2 =
      some { degree := unitCent (buildCollabGraph c6papers 2),
             betweenness := unitCent (buildCollabGraph c6papers 2),
             closeness := unitCent (buildCollabGraph c6papers 2),
             eigenvector := [] } :=
  ⟨by decide, by decide,
   (c6_eigenvector_guard unitCent unitCent unitCent unitCent c6papers 2).1
     (by decide) (by decide)⟩

/-! ## Generic list lemmas -/

/-- Sum of an indicator over a list is the length of the filtered list. -/
theorem sum_map_ite_one {β : Type} (l : List β) (q : β → Bool) :
    ((l.map (fun b => if q b = true then (1 : Nat) else 0)).sum) =
      (l.filter q).length := by
  induction l with
  | nil => rfl
  | cons a t ih =>
    by_cases h : q a = true <;> simp [h, ih, List.filter_cons] <;> omega

/-- Splitting a filter over a pointwise disjunction of disjoint predicates. -/
theorem length_filter_or {α : Type} (l : List α) (p q : α → Bool)
    (hdis : ∀ a, ¬(p a = true ∧ q a = true)) :
    (l.filter (fun a => p a || q a)).length =
      (l.filter p).length + (l.filter q).length := by
  induction l with
  | nil => rfl
  | cons a t ih =>
    cases hp : p a with
    | true =>
      have hq : q a = false := by
        cases hq : q a with
        | true => exact absurd ⟨hp, hq⟩ (hdis a)
        | false => rfl
      simp [List.filter_cons, hp, hq, ih]
      omega
    | false =>
      cases hq : q a with
      | true => simp [List.filter_cons, hp, hq, ih]; omega
      | false => simp [List.filter_cons, hp, hq, ih]

/-- In a duplicate-free list the multiplicity of any element is 0 or 1. -/
theorem nodup_count {α : Type} [DecidableEq α] (l : List α) (h : l.Nodup) (x : α) :
    l.count x = if x ∈ l then 1 else 0 := by
  induction l with
  | nil => rfl
  | cons a t ih =>
    rcases List.nodup_cons.mp h with ⟨ha, ht⟩
    by_cases hx : x = a
    · subst hx
      have ht0 : t.count x = 0 := List.count_eq_zero_of_not_mem ha
      simp [List.count_cons, ht0]
    · simp [List.count_cons, ih ht, hx, Ne.symm hx]

/-! ## Insertion-order set and sort lemmas -/

/-- Membership after an insertion-ordered set insert (ints). -/
theorem mem_setInsInt (l : List Int) (x y : Int) :
    y ∈ setInsInt l x ↔ y ∈ l ∨ y = x := by
  by_cases h : x ∈ l <;> simp [setInsInt, h]
  exact fun hy => hy ▸ h

/-- Membership after an insertion-ordered set insert (strings). -/
theorem mem_setIns (l : List String) (x y : String) :
    y ∈ setIns l x ↔ y ∈ l ∨ y = x := by
  by_cases h : x ∈ l <;> simp [setIns, h]
  exact fun hy => hy ▸ h

/-- `setInsInt` preserves freedom from duplicates. -/
theorem nodup_setInsInt (l : List Int) (x : Int) (h : l.Nodup) :
    (setInsInt l x).Nodup := by
  by_cases hx : x ∈ l
  · simpa [setInsInt, hx] using h
  · rw [setInsInt, if_neg hx]
    refine List.Nodup.append h (List.nodup_singleton x) ?_
    intro a hal hax
    rw [List.mem_singleton] at hax
    exact hx (hax ▸ hal)

/-- Membership after folding `setIns` over a list of new elements. -/
theorem mem_foldl_setIns (xs : List String) (l : List String) (y : String) :
    y ∈ xs.foldl setIns l ↔ y ∈ l ∨ y ∈ xs := by
  induction xs generalizing l with
  | nil => simp
  | cons a t ih =>
    rw [List.foldl_cons, ih, mem_setIns]
    simp only [List.mem_cons]
    tauto

/-- Inserting into a sorted list permutes consing. -/
theorem insSortedInt_perm (x : Int) (l : List Int) :
    (insSortedInt x l).Perm (x :: l) := by
  induction l with
  | nil => simp [insSortedInt]
  | cons y t ih =>
    by_cases h : x ≤ y
    · simp [insSortedInt, h]
    · simp only [insSortedInt, if_neg h]
      exact (ih.cons y).trans (List.Perm.swap x y t)

/-- `sortInt` permutes its input. -/
theorem sortInt_perm (l : List Int) : (sortInt l).Perm l := by
  induction l with
  | nil => simp [sortInt]
  | cons a t ih =>
    exact (insSortedInt_perm a (sortInt t)).trans (ih.cons a)

/-- Membership in the sorted list. -/
theorem mem_sortInt (l : List Int) (y : Int) : y ∈ sortInt l ↔ y ∈ l :=
  (sortInt_perm l).mem_iff

/-- Sorting preserves length. -/
theorem length_sortInt (l : List Int) : (sortInt l).length = l.length :=
  (sortInt_perm l).length_eq

/-- Sorting preserves freedom from duplicates. -/
theorem nodup_sortInt (l : List Int) (h : l.Nodup) : (sortInt l).Nodup :=
  ((sortInt_perm l).nodup_iff).mpr h

/-- Insertion preserves ascending order. -/
theorem insSortedInt_pairwise (x : Int) (l : List Int)
    (h : l.Pairwise (· ≤ ·)) : (insSortedInt x l).Pairwise (· ≤ ·) := by
  induction l with
  | nil => simp [insSortedInt]
  | cons y t ih =>
    rcases List.pairwise_cons.mp h with ⟨hy, ht⟩
    by_cases hxy : x ≤ y
    · rw [insSortedInt, if_pos hxy]
      refine List.pairwise_cons.mpr ⟨?_, h⟩
      intro z hz
      rcases List.mem_cons.mp hz with rfl | hz
      · exact hxy
      · exact le_trans hxy (hy z hz)
    · rw [insSortedInt, if_neg hxy]
      refine List.pairwise_cons.mpr ⟨?_, ih ht⟩
      intro z hz
      have hz' := ((insSortedInt_perm x t).mem_iff).mp hz
      rcases List.mem_cons.mp hz' with rfl | hz2
      · omega
      · exact hy z hz2

/-- `sortInt` produces an ascending list. -/
theorem sortInt_pairwise (l : List Int) : (sortInt l).Pairwise (· ≤ ·) := by
  induction l with
  | nil => simp [sortInt]
  | cons a t ih => exact insSortedInt_pairwise a (sortInt t) ih

/-! ## Bridges between the trend fold and closed-form counts -/

/-- A qualifying paper's year is non-zero and at least the start year. -/
theorem tQual_year (sy : Int) (p : TPaper) (y : Int)
    (hq : tQual sy p = true) (hy : p.year = some y) : y ≠ 0 ∧ sy ≤ y := by
  rw [tQual, hy] at hq
  simp at hq
  exact hq.2

/-- Per-year paper count computed by the fold. -/
theorem foldl_trendStep_papers (sy : Int) (papers : List TPaper)
    (st : TrendState) (z : Int) :
    ((papers.foldl (trendStep sy) st).yd z).papers =
      (st.yd z).papers +
        (papers.filter (fun p => tQual sy p && decide (p.year = some z))).length := by
  induction papers generalizing st with
  | nil => simp
  | cons p rest ih =>
    rw [List.foldl_cons, ih]
    rcases hy : p.year with _ | y
    · have hq : tQual sy p = false := by simp [tQual, hy]
      simp [trendStep, hy, List.filter_cons, hq]
    · by_cases hq : tQual sy p = true
      · by_cases hz : z = y
        · subst hz
          simp [trendStep, hy, hq, List.filter_cons]
          omega
        · simp [trendStep, hy, hq, List.filter_cons, hz, Ne.symm hz]
      · have hq' : tQual sy p = false := by simpa using hq
        simp [trendStep, hy, hq', List.filter_cons]

/-- Per-year citation sum computed by the fold. -/
theorem foldl_trendStep_citations (sy : Int) (papers : List TPaper)
    (st : TrendState) (z : Int) :
    ((papers.foldl (trendStep sy) st).yd z).citations =
      (st.yd z).citations +
        (((papers.filter (fun p => tQual sy p && decide (p.year = some z))).map
          TPaper.citations).sum) := by
  induction papers generalizing st with
  | nil => simp
  | cons p rest ih =>
    rw [List.foldl_cons, ih]
    rcases hy : p.year with _ | y
    · have hq : tQual sy p = false := by simp [tQual, hy]
      simp [trendStep, hy, List.filter_cons, hq]
    · by_cases hq : tQual sy p = true
      · by_cases hz : z = y
        · subst hz
          simp [trendStep, hy, hq, List.filter_cons]
          omega
        · simp [trendStep, hy, hq, List.filter_cons, hz, Ne.symm hz]
      · have hq' : tQual sy p = false := by simpa using hq
        simp [trendStep, hy, hq', List.filter_cons]

/-- Pointwise effect of `keyword_trends[keyword][year] += 1` over a keyword
bag. -/
theorem bumpKws_apply (kws : List String) (m : String → Int → Nat) (y : Int)
    (k : String) (z : Int) :
    bumpKws m kws y k z = m k z + (if z = y then kws.count k else 0) := by
  induction kws generalizing m with
  | nil => simp [bumpKws]
  | cons a t ih =>
    show bumpKws _ t y k z = _
    rw [ih]
    by_cases hk : k = a <;> by_cases hz : z = y <;>
      simp [hk, hz, List.count_cons] <;> omega

/-- Keyword-per-year count computed by the fold (with multiplicities). -/
theorem foldl_trendStep_kw (sy : Int) (papers : List TPaper)
    (st : TrendState) (k : String) (z : Int) :
    (papers.foldl (trendStep sy) st).kw k z =
      st.kw k z +
        ((papers.filter (fun p => tQual sy p && decide (p.year = some z))).map
          (fun p => (kwsOf p).count k)).sum := by
  induction papers generalizing st with
  | nil => simp
  | cons p rest ih =>
    rw [List.foldl_cons, ih]
    rcases hy : p.year with _ | y
    · have hq : tQual sy p = false := by simp [tQual, hy]
      simp [trendStep, hy, List.filter_cons, hq]
    · by_cases hq : tQual sy p = true
      · by_cases hz : z = y
        · subst hz
          simp [trendStep, hy, hq, List.filter_cons, bumpKws_apply]
          omega
        · simp [trendStep, hy, hq, List.filter_cons, hz, Ne.symm hz,
            bumpKws_apply]
      · have hq' : tQual sy p = false := by simpa using hq
        simp [trendStep, hy, hq', List.filter_cons]

/-- The fixed keyword vocabulary has no duplicates. -/
theorem researchKeywords_nodup : researchKeywords.Nodup := by decide

/-- A title's keyword bag has no duplicates (one hit per keyword). -/
theorem kwsOf_nodup (p : TPaper) : (kwsOf p).Nodup :=
  researchKeywords_nodup.filter _

/-- Closed form of `keyword_trends[k][z]` over the whole result set. -/
theorem trendFold_kw_count (sy : Int) (papers : List TPaper) (k : String) (z : Int) :
    (trendFold sy papers).kw k z =
      (papers.filter (fun p =>
        tQual sy p && decide (p.year = some z) && decide (k ∈ kwsOf p))).length := by
  rw [trendFold, foldl_trendStep_kw]
  have hcongr :
      (papers.filter (fun p => tQual sy p && decide (p.year = some z))).map
          (fun p => (kwsOf p).count k) =
        (papers.filter (fun p => tQual sy p && decide (p.year = some z))).map
          (fun p => if decide (k ∈ kwsOf p) = true then 1 else 0) := by
    refine List.map_congr_left ?_
    intro p _
    rw [nodup_count _ (kwsOf_nodup p) k]
    by_cases h : k ∈ kwsOf p <;> simp [h]
  rw [hcongr, sum_map_ite_one, List.filter_filter]
  have hco : ∀ p : TPaper,
      (decide (k ∈ kwsOf p) && (tQual sy p && decide (p.year = some z))) =
        (tQual sy p && decide (p.year = some z) && decide (k ∈ kwsOf p)) := by
    intro p
    cases h1 : tQual sy p <;> cases h2 : decide (p.year = some z) <;>
      cases h3 : decide (k ∈ kwsOf p) <;> simp [h1, h2, h3]
  simp only [hco]
  exact Nat.zero_add _

/-- Splitting an existential over a cons list. -/
theorem exists_mem_cons_split {α : Type} (a : α) (l : List α) (P : α → Prop) :
    (∃ x, x ∈ a :: l ∧ P x) ↔ P a ∨ ∃ x, x ∈ l ∧ P x := by
  simp [List.mem_cons, or_and_right, exists_or]

/-- Effect of one step on the `yearly_data` keys. -/
theorem trendStep_ydKeys_mem (sy : Int) (st : TrendState) (p : TPaper) (v : Int) :
    v ∈ (trendStep sy st p).ydKeys ↔
      v ∈ st.ydKeys ∨ (tQual sy p = true ∧ p.year = some v) := by
  rcases hy : p.year with _ | yp
  · have hq : tQual sy p = false := by simp [tQual, hy]
    simp [trendStep, hy, hq]
  · by_cases hq : tQual sy p = true
    · simp [trendStep, hy, hq, mem_setInsInt, eq_comm]
    · have hq' : tQual sy p = false := by simpa using hq
      simp [trendStep, hy, hq']

/-- Membership in the `yearly_data` key list produced by the fold. -/
theorem foldl_trendStep_ydKeys_mem (sy : Int) (papers : List TPaper)
    (st : TrendState) (y : Int) :
    y ∈ (papers.foldl (trendStep sy) st).ydKeys ↔
      y ∈ st.ydKeys ∨ ∃ p, p ∈ papers ∧ tQual sy p = true ∧ p.year = some y := by
  induction papers generalizing st with
  | nil => simp
  | cons p rest ih =>
    rw [List.foldl_cons, ih, trendStep_ydKeys_mem,
      exists_mem_cons_split p rest (fun q => tQual sy q = true ∧ q.year = some y)]
    tauto

/-- The `yearly_data` key list produced by the fold has no duplicates. -/
theorem foldl_trendStep_ydKeys_nodup (sy : Int) (papers : List TPaper)
    (st : TrendState) (h : st.ydKeys.Nodup) :
    (papers.foldl (trendStep sy) st).ydKeys.Nodup := by
  induction papers generalizing st with
  | nil => simpa
  | cons p rest ih =>
    rw [List.foldl_cons]
    refine ih _ ?_
    rcases hy : p.year with _ | yp
    · simpa [trendStep, hy]
    · by_cases hq : tQual sy p = true
      · simpa [trendStep, hy, hq] using nodup_setInsInt _ _ h
      · have hq' : tQual sy p = false := by simpa using hq
        simpa [trendStep, hy, hq']

/-- Effect of one step on the `keyword_trends` keys. -/
theorem trendStep_kwKeys_mem (sy : Int) (st : TrendState) (p : TPaper) (k : String) :
    k ∈ (trendStep sy st p).kwKeys ↔
      k ∈ st.kwKeys ∨ (tQual sy p = true ∧ k ∈ kwsOf p) := by
  rcases hy : p.year with _ | yp
  · have hq : tQual sy p = false := by simp [tQual, hy]
    simp [trendStep, hy, hq]
  · by_cases hq : tQual sy p = true
    · simp [trendStep, hy, hq, mem_foldl_setIns]
    · have hq' : tQual sy p = false := by simpa using hq
      simp [trendStep, hy, hq']

/-- Membership in the `keyword_trends` key list produced by the fold. -/
theorem foldl_trendStep_kwKeys_mem (sy : Int) (papers : List TPaper)
    (st : TrendState) (k : String) :
    k ∈ (papers.foldl (trendStep sy) st).kwKeys ↔
      k ∈ st.kwKeys ∨ ∃ p, p ∈ papers ∧ tQual sy p = true ∧ k ∈ kwsOf p := by
  induction papers generalizing st with
  | nil => simp
  | cons p rest ih =>
    rw [List.foldl_cons, ih, trendStep_kwKeys_mem,
      exists_mem_cons_split p rest (fun q => tQual sy q = true ∧ k ∈ kwsOf q)]
    tauto

/-- Membership in `years`: exactly the years of qualifying papers. -/
theorem mem_tYears (sy : Int) (papers : List TPaper) (y : Int) :
    y ∈ tYears sy papers ↔
      ∃ p, p ∈ papers ∧ tQual sy p = true ∧ p.year = some y := by
  rw [tYears, mem_sortInt, List.mem_filter]
  constructor
  · rintro ⟨h1, _⟩
    exact (by simpa using (foldl_trendStep_ydKeys_mem sy papers _ y).mp h1)
  · rintro ⟨p, hp1, hp2, hp3⟩
    refine ⟨(foldl_trendStep_ydKeys_mem sy papers _ y).mpr (Or.inr ⟨p, hp1, hp2, hp3⟩), ?_⟩
    simpa using (tQual_year sy p y hp2 hp3).2

/-- `years` has no duplicates. -/
theorem tYears_nodup (sy : Int) (papers : List TPaper) : (tYears sy papers).Nodup :=
  nodup_sortInt _ ((foldl_trendStep_ydKeys_nodup sy papers _ (by simp)).filter _)

/-- `years` is ascending. -/
theorem tYears_pairwise (sy : Int) (papers : List TPaper) :
    (tYears sy papers).Pairwise (· ≤ ·) :=
  sortInt_pairwise _

/-- Summing per-year keyword counts over a duplicate-free year window equals
the window count. -/
theorem kw_window_sum (sy : Int) (papers : List TPaper) (ys : List Int)
    (hnd : ys.Nodup) (k : String) :
    (ys.map (fun y => (trendFold sy papers).kw k y)).sum =
      kwWindowCount sy papers ys k := by
  induction ys with
  | nil =>
    have hfalse : ∀ p ∈ papers,
        (tQual sy p && yearIn ([] : List Int) p && decide (k ∈ kwsOf p)) = false := by
      intro p _
      rcases hy : p.year with _ | y <;> simp [yearIn, hy]
    rw [kwWindowCount]
    simp only [List.map_nil, List.sum_nil]
    rw [List.filter_congr hfalse]
    simp
  | cons y t ih =>
    rcases List.nodup_cons.mp hnd with ⟨hy, ht⟩
    rw [List.map_cons, List.sum_cons, ih ht, trendFold_kw_count, kwWindowCount,
      kwWindowCount]
    have hpred : ∀ p ∈ papers,
        (tQual sy p && yearIn (y :: t) p && decide (k ∈ kwsOf p)) =
          ((tQual sy p && decide (p.year = some y) && decide (k ∈ kwsOf p)) ||
            (tQual sy p && yearIn t p && decide (k ∈ kwsOf p))) := by
      intro p _
      rcases hpy : p.year with _ | py
      · simp [yearIn, hpy]
      · simp only [yearIn, hpy]
        have hsplit : (decide (py ∈ y :: t)) = (decide (py = y) || decide (py ∈ t)) := by
          by_cases ha : py = y <;> by_cases hb : py ∈ t <;> simp [ha, hb]
        have heq : (decide ((some py : Option Int) = some y)) = decide (py = y) := by
          by_cases ha : py = y <;> simp [ha]
        rw [hsplit, heq]
        cases h1 : tQual sy p <;> cases h2 : decide (py = y) <;>
          cases h3 : decide (py ∈ t) <;> cases h4 : decide (k ∈ kwsOf p) <;>
            simp [h1, h2, h3, h4]
    rw [List.filter_congr hpred]
    rw [length_filter_or]
    intro p
    rintro ⟨h1, h2⟩
    rcases hpy : p.year with _ | py
    · simp only [hpy, Bool.and_eq_true, decide_eq_true_eq] at h1
      exact Option.noConfusion h1.1.2
    · simp only [hpy, Option.some.injEq, Bool.and_eq_true, decide_eq_true_eq] at h1
      simp only [yearIn, hpy, Bool.and_eq_true, decide_eq_true_eq] at h2
      exact hy (h1.1.2 ▸ h2.1.2)

/-- C10: when fewer than 2 distinct qualifying years exist,
`analyze_research_trends` returns the empty `trend_analysis` dict and an
empty emerging-keyword list, while the result is still a well-formed
structure whose `yearly_data` keys are exactly the qualifying years and whose
`keyword_trends` keys are exactly the keywords of qualifying papers. -/
theorem c10_trend_degenerate (cy yb : Int) (papers : List TPaper)
    (h : (tYears (cy - yb) papers).length < 2) :
    (analyzeResearchTrends cy yb papers).trendAnalysis = none ∧
    (analyzeResearchTrends cy yb papers).emergingKeywords = [] ∧
    (∀ y, y ∈ (analyzeResearchTrends cy yb papers).yearlyKeys ↔
      ∃ p, p ∈ papers ∧ tQual (cy - yb) p = true ∧ p.year = some y) ∧
    (∀ k, k ∈ (analyzeResearchTrends cy yb papers).keywordKeys ↔
      ∃ p, p ∈ papers ∧ tQual (cy - yb) p = true ∧ k ∈ kwsOf p) := by
  have h1 : ¬(1 < (tYears (cy - yb) papers).length) := by omega
  have h3 : ¬(3 ≤ (tYears (cy - yb) papers).length) := by omega
  refine ⟨?_, ?_, ?_, ?_⟩
  · simp [analyzeResearchTrends, h1]
  · simp [analyzeResearchTrends, h3, sortDescGrowth]
  · intro y
    have := foldl_trendStep_ydKeys_mem (cy - yb) papers
      { ydKeys := [], yd := fun _ => ⟨0, 0, [], []⟩, kwKeys := [], kw := fun _ _ => 0 } y
    simpa [analyzeResearchTrends, trendFold] using this
  · intro k
    have := foldl_trendStep_kwKeys_mem (cy - yb) papers
      { ydKeys := [], yd := fun _ => ⟨0, 0, [], []⟩, kwKeys := [], kw := fun _ _ => 0 } k
    simpa [analyzeResearchTrends, trendFold] using this

/-- C10 witness: a single qualifying year gives the degenerate result. -/
theorem c10_trend_degenerate_witness :
    (tYears (2024 - 10) c10papers).length < 2 ∧
    ((analyzeResearchTrends 2024 10 c10papers).trendAnalysis = none ∧
      (analyzeResearchTrends 2024 10 c10papers).emergingKeywords = [] ∧
      (∀ y, y ∈ (analyzeResearchTrends 2024 10 c10papers).yearlyKeys ↔
        ∃ p, p ∈ c10papers ∧ tQual (2024 - 10) p = true ∧ p.year = some y) ∧
      (∀ k, k ∈ (analyzeResearchTrends 2024 10 c10papers).keywordKeys ↔
        ∃ p, p ∈ c10papers ∧ tQual (2024 - 10) p = true ∧ k ∈ kwsOf p)) :=
  ⟨by decide, c10_trend_degenerate 2024 10 c10papers (by decide)⟩

/-- C2: the claim is false as stated — with exactly 2 distinct qualifying
years, `analyze_research_trends` does NOT fit a least-squares line: on paper
counts `[2, 8]` the OLS slope is 6 (which the claim would classify
"growing"), but the source sets `paper_trend = 0` (guard
`len(papers_by_year) > 2`) and the classification is "stable". -/
theorem c2_counterexample :
    (analyzeResearchTrends 2024 10 c2twoPapers).trendAnalysis = some c2twoTI ∧
    c2twoTI.years.length = 2 ∧
    olsSlope (c2twoTI.papersByYear.map (fun n => (n : Int))) = ⟨6, 1⟩ ∧
    fracVal ⟨6, 1⟩ = 6 ∧
    trendLabel ⟨6, 1⟩ = "growing" ∧
    c2twoTI.paperTrend = fracZero ∧
    trendLabel c2twoTI.paperTrend = "stable" ∧
    fracVal c2twoTI.paperTrend ≠ fracVal ⟨6, 1⟩ := by
  refine ⟨by decide, by decide, by decide, by norm_num [fracVal], by decide,
    by decide, by decide, ?_⟩
  norm_num [fracVal, c2twoTI, fracZero]

/-- C2 (amended): `analyze_research_trends` fits an ordinary least-squares
line to (year-index, paper-count) and (year-index, citation-count) only when
at least 3 distinct qualifying years exist; with exactly 2 distinct years
both trends are set to 0 (classified "stable").  The per-year series are the
qualifying-paper counts/citation sums over the ascending distinct years.  The
5-year series [2,2,3,5,8] yields slope 3/2 > 0.1, classified "growing", and
the flat series [3,3,3,3,3] yields slope 0, classified "stable". -/
theorem c2_trend_fit_amended :
    (∀ (cy yb : Int) (papers : List TPaper) (ti : TrendInfo),
      (analyzeResearchTrends cy yb papers).trendAnalysis = some ti →
      ti.years = tYears (cy - yb) papers ∧
      ti.years.Pairwise (· ≤ ·) ∧
      ti.papersByYear = ti.years.map (fun y =>
        (papers.filter (fun p => tQual (cy - yb) p && decide (p.year = some y))).length) ∧
      ti.citationsByYear = ti.years.map (fun y =>
        ((papers.filter (fun p => tQual (cy - yb) p && decide (p.year = some y))).map
          TPaper.citations).sum) ∧
      (3 ≤ ti.years.length →
        ti.paperTrend = olsSlope (ti.papersByYear.map (fun n => (n : Int))) ∧
        ti.citationTrend = olsSlope ti.citationsByYear) ∧
      (ti.years.length = 2 →
        ti.paperTrend = fracZero ∧ ti.citationTrend = fracZero)) ∧
    ((analyzeResearchTrends 2025 10 c2growPapers).trendAnalysis = some c2growTI ∧
      c2growTI.paperTrend = olsSlope [2, 2, 3, 5, 8] ∧
      fracVal c2growTI.paperTrend = 3 / 2 ∧
      trendLabel c2growTI.paperTrend = "growing") ∧
    ((analyzeResearchTrends 2025 10 c2flatPapers).trendAnalysis = some c2flatTI ∧
      fracVal c2flatTI.paperTrend = 0 ∧
      trendLabel c2flatTI.paperTrend = "stable") := by
  refine ⟨?_, ⟨by decide, by decide, ?_, by decide⟩, ⟨by decide, ?_, by decide⟩⟩
  · intro cy yb papers ti hti
    simp only [analyzeResearchTrends] at hti
    by_cases hlen : 1 < (tYears (cy - yb) papers).length
    · rw [if_pos hlen] at hti
      have hti2 := (Option.some.inj hti).symm
      subst hti2
      refine ⟨rfl, tYears_pairwise _ _, ?_, ?_, ?_, ?_⟩
      · refine List.map_congr_left ?_
        intro y _
        have := foldl_trendStep_papers (cy - yb) papers
          { ydKeys := [], yd := fun _ => ⟨0, 0, [], []⟩, kwKeys := [], kw := fun _ _ => 0 } y
        simpa [trendFold] using this
      · refine List.map_congr_left ?_
        intro y _
        have := foldl_trendStep_citations (cy - yb) papers
          { ydKeys := [], yd := fun _ => ⟨0, 0, [], []⟩, kwKeys := [], kw := fun _ _ => 0 } y
        simpa [trendFold] using this
      · intro h3
        have hlen2 : 2 < ((tYears (cy - yb) papers).map
            (fun y => ((trendFold (cy - yb) papers).yd y).papers)).length := by
          rw [List.length_map]
          simpa using h3
        constructor
        · show (if _ then _ else _) = _
          rw [if_pos hlen2]
        · show (if _ then _ else _) = _
          rw [if_pos hlen2]
      · intro h2
        have hlen2 : ¬(2 < ((tYears (cy - yb) papers).map
            (fun y => ((trendFold (cy - yb) papers).yd y).papers)).length) := by
          rw [List.length_map]
          simp at h2
          omega
        constructor
        · show (if _ then _ else _) = _
          rw [if_neg hlen2]
        · show (if _ then _ else _) = _
          rw [if_neg hlen2]
    · rw [if_neg hlen] at hti
      cases hti
  · norm_num [fracVal, c2growTI]
  · norm_num [fracVal, c2flatTI]

/-- C2 witness: on the concrete growing series the fitted slope equals the
least-squares slope of the per-year paper counts. -/
theorem c2_trend_fit_witness :
    (analyzeResearchTrends 2025 10 c2growPapers).trendAnalysis = some c2growTI ∧
    3 ≤ c2growTI.years.length ∧
    c2growTI.paperTrend = olsSlope (c2growTI.papersByYear.map (fun n => (n : Int))) := by
  have h : (analyzeResearchTrends 2025 10 c2growPapers).trendAnalysis = some c2growTI := by
    decide
  exact ⟨h, by decide,
    ((c2_trend_fit_amended.1 2025 10 c2growPapers c2growTI h).2.2.2.2.1 (by decide)).1⟩

/-! ## C3/C4: record normalization -/

/-- The year of a successfully extracted document is exactly the year block's
result on the record's cover-date value. -/
theorem extract_year_of_ok (paper : PyDict) (d : DocData)
    (h : extractDocumentData paper = .ok (some d)) :
    d.year = extractYear (dGet paper "prism:coverDate" (.jstr "")) := by
  rw [extractDocumentData] at h
  repeat' split at h
  all_goals simp_all
  all_goals rw [← h]

/-- C3: the claim is false as stated — record normalization CAN raise on
malformed field values: `extract_document_data` raises `ValueError` on a
non-numeric `citedby-count`, and `is_birmingham_affiliated` raises
`AttributeError` on a non-string `affilname` (modelled as `.error`). -/
theorem c3_counterexample :
    exIsOk (extractDocumentData c3badRec) = false ∧
    exIsOk (isBirminghamAffiliated c3affRec) = false :=
  ⟨by decide, by decide⟩

/-- The Birmingham pre-filter succeeds when the affiliation check raises on
no record of the batch. -/
theorem birmFilter_ok (recs : List PyDict)
    (h : ∀ r ∈ recs, exIsOk (isBirminghamAffiliated r) = true) :
    ∃ l, birminghamFilterE recs = .ok l := by
  induction recs with
  | nil => exact ⟨[], rfl⟩
  | cons r rest ih =>
    have hr := h r (List.mem_cons_self _ _)
    rcases hb : isBirminghamAffiliated r with e | b
    · rw [hb] at hr
      simp [exIsOk] at hr
    · obtain ⟨t, ht⟩ := ih (fun x hx => h x (List.mem_cons_of_mem _ hx))
      exact ⟨if b then r :: t else t, by rw [birminghamFilterE, hb, ht]⟩

/-- C3 (amended): extraction failures can raise, but they are contained: (1)
when the Birmingham pre-filter (which is outside the per-record handler)
raises on no record, the pre-processing phase of `process_papers` returns a
result; (2) a record whose extraction raises is skipped by the per-record
handler and processing continues with the remaining records; (3) only the
year field degrades to null on a parse failure without failing the record. -/
theorem c3_malformed_records (recs : List PyDict)
    (h : ∀ r ∈ recs, exIsOk (isBirminghamAffiliated r) = true) :
    (∃ l, processPapersPre recs = .ok l) ∧
    (∀ r rest, perRecord r = .error () → loopRecords (r :: rest) = loopRecords rest) ∧
    (∀ paper s d, dGet paper "prism:coverDate" (.jstr "") = .jstr s →
      pyIntStr (strBeforeDash s) = none →
      extractDocumentData paper = .ok (some d) → d.year = none) := by
  refine ⟨?_, ?_, ?_⟩
  · obtain ⟨l, hl⟩ := birmFilter_ok recs h
    exact ⟨loopRecords l, by rw [processPapersPre, hl]⟩
  · intro r rest hr
    simp [loopRecords, hr]
  · intro paper s d hs hparse hd
    have h2 := extract_year_of_ok paper d hd
    rw [hs] at h2
    rw [h2]
    simp only [extractYear, pyStrOf, hparse]
    split <;> rfl

/-- C3 witness: a batch with one well-formed Birmingham record and one whose
citation count is malformed is pre-processed without raising. -/
theorem c3_malformed_records_witness :
    (∀ r ∈ c3recs, exIsOk (isBirminghamAffiliated r) = true) ∧
    (∃ l, processPapersPre c3recs = .ok l) := by
  have h : ∀ r ∈ c3recs, exIsOk (isBirminghamAffiliated r) = true := by decide
  exact ⟨h, (c3_malformed_records c3recs h).1⟩

/-- C4: the claim is false as stated — a cover date of `"2024"` begins with a
parseable 4-digit year segment (the claim's reading gives 2024), but the
source requires a dash in the string and leaves the year null. -/
theorem c4_counterexample :
    yearOfExtract (extractDocumentData c4dashless) = some none ∧
    specLeadingYearSegment "2024" = some 2024 ∧
    (some (none : Option Int) ≠ some (some (2024 : Int))) :=
  ⟨by decide, by decide, by decide⟩

/-- C4 (amended): for a record with a resolvable identity whose cover-date
value is the string `s`, the extracted year is the `int(...)` parse of the
segment before the first dash when `s` is non-empty and contains a dash, and
null otherwise (dash-free strings such as "2024" included); parse failures
yield null, never an error. -/
theorem c4_year_amended (paper : PyDict) (s : String)
    (hs : dGet paper "prism:coverDate" (.jstr "") = .jstr s)
    (d : DocData) (hd : extractDocumentData paper = .ok (some d)) :
    d.year = (if s ≠ "" ∧ strHasDash s = true then pyIntStr (strBeforeDash s)
      else none) := by
  have h2 := extract_year_of_ok paper d hd
  rw [hs] at h2
  rw [h2]
  simp only [extractYear, pyStrOf, pyTruthy]
  by_cases h1 : s = "" <;> by_cases hdash : strHasDash s = true <;>
    simp [h1, hdash]

/-- C4 witness: on the record with cover date "2024-05-01" the extracted year
is 2024. -/
theorem c4_year_amended_witness :
    dGet c4recW "prism:coverDate" (.jstr "") = .jstr "2024-05-01" ∧
    extractDocumentData c4recW = .ok (some c4docW) ∧
    c4docW.year = some 2024 := by
  refine ⟨rfl, rfl, ?_⟩
  have h := c4_year_amended c4recW "2024-05-01" rfl c4docW rfl
  rw [h]
  decide

/-! ## Bridges for the collaboration fold -/

/-- Pointwise effect of one `author_paper_count` bump. -/
theorem bump1_apply (m : String → Nat) (a x : String) :
    bump1 m a x = m x + (if x = a then 1 else 0) := by
  by_cases h : x = a <;> simp [bump1, h]

/-- Closed form of the per-paper author counting loop. -/
theorem countAuthorsPaper_apply (l : List String) (m : String → Nat) (x : String) :
    countAuthorsPaper m l x = m x + (l.filter (fun a => a ≠ "")).count x := by
  induction l generalizing m with
  | nil => simp [countAuthorsPaper]
  | cons a t ih =>
    show countAuthorsPaper (if a ≠ "" then bump1 m a else m) t x = _
    rw [ih]
    by_cases ha : a = ""
    · simp [ha, List.filter_cons]
    · by_cases hx : x = a
      · subst hx
        simp [ha, bump1_apply, List.filter_cons, List.count_cons]
        omega
      · simp [ha, bump1_apply, hx, List.filter_cons, List.count_cons, Ne.symm hx]

/-- Pointwise effect of one `collaboration_graph` bump. -/
theorem bump2_apply (m : String → String → Nat) (a b x y : String) :
    bump2 m a b x y = m x y + (if x = a ∧ y = b then 1 else 0) := by
  by_cases h : x = a ∧ y = b <;> simp [bump2, h]

/-- Closed form of the inner pair loop for a fixed first author. -/
theorem addPairsFrom_apply (rest : List String) (m : String → String → Nat)
    (a x y : String) :
    addPairsFrom m a rest x y = m x y + rowCnt a rest x y := by
  induction rest generalizing m with
  | nil => simp [addPairsFrom, rowCnt]
  | cons b t ih =>
    show addPairsFrom (if a ≠ "" ∧ b ≠ "" then bump2 (bump2 m a b) b a else m) a t x y = _
    rw [ih, rowCnt]
    by_cases hab : a ≠ "" ∧ b ≠ ""
    · rw [if_pos hab, if_pos hab, bump2_apply, bump2_apply, pairContrib]
      omega
    · rw [if_neg hab, if_neg hab]
      omega

/-- Closed form of the pair-building loop of one paper. -/
theorem addPairs_apply (l : List String) (m : String → String → Nat) (x y : String) :
    addPairs m l x y = m x y + pairCnt l x y := by
  induction l generalizing m with
  | nil => simp [addPairs, pairCnt]
  | cons a t ih =>
    rw [addPairs, ih, addPairsFrom_apply, pairCnt]
    omega

/-- The pair contribution is symmetric in the queried entry. -/
theorem pairContrib_symm (a b x y : String) :
    pairContrib a b x y = pairContrib a b y x := by
  rw [pairContrib, pairContrib,
    if_congr (and_comm (a := x = a) (b := y = b)) rfl rfl,
    if_congr (and_comm (a := x = b) (b := y = a)) rfl rfl]
  omega

/-- Row counts are symmetric in the queried entry. -/
theorem rowCnt_symm (a : String) (l : List String) (x y : String) :
    rowCnt a l x y = rowCnt a l y x := by
  induction l with
  | nil => rfl
  | cons b t ih => rw [rowCnt, rowCnt, ih, pairContrib_symm]

/-- Pair counts are symmetric in the queried entry. -/
theorem pairCnt_symm (l : List String) (x y : String) :
    pairCnt l x y = pairCnt l y x := by
  induction l with
  | nil => rfl
  | cons a t ih => rw [pairCnt, pairCnt, ih, rowCnt_symm]

/-- Closed form of the accumulated co-occurrence counts over the paper loop. -/
theorem foldl_collabStep_collab (papers : List TPaper) (st : CollabState)
    (x y : String) :
    (papers.foldl collabStep st).collab x y =
      st.collab x y + ((papers.filter cQual).map (fun p => pairCnt p.authors x y)).sum := by
  induction papers generalizing st with
  | nil => simp
  | cons p rest ih =>
    rw [List.foldl_cons, ih]
    by_cases hq : cQual p = true
    · simp [collabStep, hq, List.filter_cons, addPairs_apply]
      omega
    · have hq' : cQual p = false := by simpa using hq
      simp [collabStep, hq', List.filter_cons]

/-- Closed form of the per-author paper counts over the paper loop. -/
theorem foldl_collabStep_cnt (papers : List TPaper) (st : CollabState) (x : String) :
    (papers.foldl collabStep st).cnt x =
      st.cnt x + ((papers.filter cQual).map
        (fun p => (p.authors.filter (fun a => a ≠ "")).count x)).sum := by
  induction papers generalizing st with
  | nil => simp
  | cons p rest ih =>
    rw [List.foldl_cons, ih]
    by_cases hq : cQual p = true
    · simp [collabStep, hq, List.filter_cons, countAuthorsPaper_apply]
      omega
    · have hq' : cQual p = false := by simpa using hq
      simp [collabStep, hq', List.filter_cons]

/-- C9: the pairwise co-occurrence accumulator of
`analyze_collaboration_network` is symmetric: for all author names the
accumulated count `collaboration_graph[a][b]` equals
`collaboration_graph[b][a]`, so the weight of the undirected edge between two
active authors does not depend on the order in which they are listed. -/
theorem c9_collab_symmetric (papers : List TPaper) (x y : String) :
    (collabFold papers).collab x y = (collabFold papers).collab y x := by
  rw [collabFold, foldl_collabStep_collab, foldl_collabStep_collab]
  have : ∀ p ∈ papers.filter cQual,
      pairCnt p.authors x y = pairCnt p.authors y x := fun p _ => pairCnt_symm _ _ _
  rw [List.map_congr_left this]

/-- Closed form of a row count in terms of occurrence counts. -/
theorem rowCnt_closed (a : String) (t : List String) (x y : String) :
    rowCnt a t x y =
      (if x = a ∧ a ≠ "" ∧ y ≠ "" then t.count y else 0) +
      (if y = a ∧ a ≠ "" ∧ x ≠ "" then t.count x else 0) := by
  induction t with
  | nil => simp [rowCnt]
  | cons b t ih =>
    rw [rowCnt, ih, pairContrib]
    by_cases ha : a = "" <;> by_cases hb : b = "" <;>
      by_cases hxa : x = a <;> by_cases hya : y = a <;>
        by_cases hxb : x = b <;> by_cases hyb : y = b <;>
          simp_all [List.count_cons] <;> omega

/-- Counting a non-empty name ignores the empty-name filter. -/
theorem count_filter_ne_empty (t : List String) (y : String) (hy : y ≠ "") :
    (t.filter (fun a => a ≠ "")).count y = t.count y := by
  induction t with
  | nil => rfl
  | cons b t ih =>
    simp only [ne_eq, decide_not] at ih ⊢
    by_cases hb : b = ""
    · subst hb
      simp [List.filter_cons, List.count_cons, ih, hy]
    · simp [List.filter_cons, hb, List.count_cons, ih]

/-- In a list whose non-empty names are duplicate-free, a non-empty name
occurs at most once. -/
theorem count_of_nodup_filter (t : List String) (y : String)
    (h : (t.filter (fun a => a ≠ "")).Nodup) (hy : y ≠ "") :
    t.count y = if y ∈ t then 1 else 0 := by
  rw [← count_filter_ne_empty t y hy, nodup_count _ h y]
  refine if_congr ?_ rfl rfl
  rw [List.mem_filter]
  simp [hy]

/-- Under the duplicate-free hypothesis, the pair count of one author list is
the indicator of both distinct non-empty names being listed. -/
theorem pairCnt_nodup (l : List String) (x y : String)
    (h : (l.filter (fun a => a ≠ "")).Nodup) :
    pairCnt l x y =
      if x ≠ y ∧ x ≠ "" ∧ y ≠ "" ∧ x ∈ l ∧ y ∈ l then 1 else 0 := by
  induction l with
  | nil => simp [pairCnt]
  | cons a t ih =>
    rw [pairCnt, rowCnt_closed]
    by_cases ha : a = ""
    · subst ha
      have ht : (t.filter (fun a => a ≠ "")).Nodup := by
        simpa [List.filter_cons] using h
      rw [ih ht]
      have hcong : (x ≠ y ∧ x ≠ "" ∧ y ≠ "" ∧ x ∈ "" :: t ∧ y ∈ "" :: t) ↔
          (x ≠ y ∧ x ≠ "" ∧ y ≠ "" ∧ x ∈ t ∧ y ∈ t) := by
        simp only [List.mem_cons]
        constructor <;> rintro ⟨h1, h2, h3, h4, h5⟩ <;>
          exact ⟨h1, h2, h3, by tauto, by tauto⟩
      rw [if_congr hcong rfl rfl]
      simp
    · have hfil : (a :: t).filter (fun a => a ≠ "") =
          a :: t.filter (fun a => a ≠ "") := by
        simp [List.filter_cons, ha]
      rw [hfil] at h
      rcases List.nodup_cons.mp h with ⟨hanotin, ht⟩
      have hat : a ∉ t := fun hmem =>
        hanotin (List.mem_filter.mpr ⟨hmem, by simp [ha]⟩)
      rw [ih ht]
      by_cases hx : x = ""
      · subst hx
        simp [Ne.symm ha]
      · by_cases hy : y = ""
        · subst hy
          simp [Ne.symm ha]
        · have hcx : t.count x = if x ∈ t then 1 else 0 :=
            count_of_nodup_filter t x ht hx
          have hcy : t.count y = if y ∈ t then 1 else 0 :=
            count_of_nodup_filter t y ht hy
          rw [hcx, hcy]
          by_cases hxa : x = a <;> by_cases hya : y = a <;>
            by_cases hxt : x ∈ t <;> by_cases hyt : y ∈ t <;>
              by_cases hxy : x = y <;>
                simp_all [List.mem_cons]

/-- Membership effect of one paper on the `author_paper_count` keys. -/
theorem seenAuthorsPaper_mem (authors : List String) (seen : List String) (x : String) :
    x ∈ seenAuthorsPaper seen authors ↔ x ∈ seen ∨ (x ≠ "" ∧ x ∈ authors) := by
  induction authors generalizing seen with
  | nil => simp [seenAuthorsPaper]
  | cons a t ih =>
    show x ∈ seenAuthorsPaper (if a ≠ "" then setIns seen a else seen) t ↔ _
    rw [ih]
    by_cases ha : a = ""
    · simp only [ha, ne_eq, not_true_eq_false, if_false, List.mem_cons]
      constructor
      · rintro (h | h)
        · exact Or.inl h
        · exact Or.inr ⟨h.1, Or.inr h.2⟩
      · rintro (h | ⟨h1, rfl | h2⟩)
        · exact Or.inl h
        · exact absurd rfl h1
        · exact Or.inr ⟨h1, h2⟩
    · simp only [ha, ne_eq, not_false_eq_true, if_true, mem_setIns, List.mem_cons]
      constructor
      · rintro ((h | rfl) | h)
        · exact Or.inl h
        · exact Or.inr ⟨ha, Or.inl rfl⟩
        · exact Or.inr ⟨h.1, Or.inr h.2⟩
      · rintro (h | ⟨h1, rfl | h2⟩)
        · exact Or.inl (Or.inl h)
        · exact Or.inl (Or.inr rfl)
        · exact Or.inr ⟨h1, h2⟩

/-- Membership in the `author_paper_count` keys over the paper loop. -/
theorem foldl_collabStep_seen_mem (papers : List TPaper) (st : CollabState) (x : String) :
    x ∈ (papers.foldl collabStep st).seen ↔
      x ∈ st.seen ∨ ∃ p, p ∈ papers ∧ cQual p = true ∧ x ≠ "" ∧ x ∈ p.authors := by
  induction papers generalizing st with
  | nil => simp
  | cons p rest ih =>
    rw [List.foldl_cons, ih]
    have hstep : x ∈ (collabStep st p).seen ↔
        x ∈ st.seen ∨ (cQual p = true ∧ x ≠ "" ∧ x ∈ p.authors) := by
      by_cases hq : cQual p = true
      · simp [collabStep, hq, seenAuthorsPaper_mem, and_assoc]
      · have hq' : cQual p = false := by simpa using hq
        simp [collabStep, hq']
    rw [hstep, exists_mem_cons_split p rest
      (fun q => cQual q = true ∧ x ≠ "" ∧ x ∈ q.authors)]
    tauto

/-- Closed form of `author_paper_count` under the duplicate-free hypothesis:
the count of a non-empty name is its qualifying-paper count. -/
theorem collabFold_cnt_closed (papers : List TPaper)
    (hnd : ∀ p ∈ papers, (p.authors.filter (fun a => a ≠ "")).Nodup) (x : String) :
    (collabFold papers).cnt x = if x = "" then 0 else numQual papers x := by
  rw [collabFold, foldl_collabStep_cnt]
  have hcongr : (papers.filter cQual).map
      (fun p => (p.authors.filter (fun a => a ≠ "")).count x) =
      (papers.filter cQual).map
        (fun p => if (decide (x ≠ "") && decide (x ∈ p.authors)) = true then 1 else 0) := by
    refine List.map_congr_left ?_
    intro p hp
    have hp' := (List.mem_filter.mp hp).1
    by_cases hx : x = ""
    · subst hx
      have h0 : ("" : String) ∉ p.authors.filter (fun a => a ≠ "") := by
        intro hmem
        exact absurd (List.mem_filter.mp hmem).2 (by simp)
      rw [List.count_eq_zero_of_not_mem h0, if_neg]
      simp
    · rw [count_filter_ne_empty _ _ hx,
        count_of_nodup_filter _ _ (hnd p hp') hx]
      by_cases hmem : x ∈ p.authors <;> simp [hmem, hx]
  rw [hcongr, sum_map_ite_one, List.filter_filter]
  by_cases hx : x = ""
  · subst hx
    rw [if_pos rfl]
    have hfalse : ∀ p ∈ papers,
        (decide (("" : String) ≠ "") && decide (("" : String) ∈ p.authors) && cQual p) = false := by
      intro p _
      simp
    rw [List.filter_congr hfalse]
    simp
  · rw [if_neg hx, numQual]
    have hco : ∀ p ∈ papers,
        (decide (x ≠ "") && decide (x ∈ p.authors) && cQual p) =
          (cQual p && decide (x ∈ p.authors)) := by
      intro p _
      cases hq : cQual p <;> cases hm : decide (x ∈ p.authors) <;>
        simp [hq, hm, hx]
    rw [List.filter_congr hco]
    exact Nat.zero_add _

/-- Closed form of the accumulated co-occurrence count under the
duplicate-free hypothesis. -/
theorem collabFold_collab_closed (papers : List TPaper)
    (hnd : ∀ p ∈ papers, (p.authors.filter (fun a => a ≠ "")).Nodup) (x y : String) :
    (collabFold papers).collab x y =
      if x ≠ y ∧ x ≠ "" ∧ y ≠ "" then numBoth papers x y else 0 := by
  rw [collabFold, foldl_collabStep_collab]
  have hcongr : (papers.filter cQual).map (fun p => pairCnt p.authors x y) =
      (papers.filter cQual).map (fun p =>
        if x ≠ y ∧ x ≠ "" ∧ y ≠ "" then
          (if (decide (x ∈ p.authors) && decide (y ∈ p.authors)) = true then 1 else 0)
        else 0) := by
    refine List.map_congr_left ?_
    intro p hp
    have hp' := (List.mem_filter.mp hp).1
    rw [pairCnt_nodup _ _ _ (hnd p hp')]
    by_cases h1 : x ≠ y ∧ x ≠ "" ∧ y ≠ ""
    · rw [if_pos h1]
      by_cases hx : x ∈ p.authors <;> by_cases hy : y ∈ p.authors <;>
        simp [h1, hx, hy]
    · rw [if_neg h1]
      rw [if_neg]
      intro hcond
      exact h1 ⟨hcond.1, hcond.2.1, hcond.2.2.1⟩
  rw [hcongr]
  by_cases h1 : x ≠ y ∧ x ≠ "" ∧ y ≠ ""
  · simp only [h1, if_true, if_pos h1]
    rw [sum_map_ite_one, List.filter_filter, numBoth]
    have hco : ∀ p ∈ papers,
        (decide (x ∈ p.authors) && decide (y ∈ p.authors) && cQual p) =
          (cQual p && decide (x ∈ p.authors) && decide (y ∈ p.authors)) := by
      intro p _
      cases h2 : cQual p <;> cases h3 : decide (x ∈ p.authors) <;>
        cases h4 : decide (y ∈ p.authors) <;> simp [h2, h3, h4]
    rw [List.filter_congr hco]
    exact Nat.zero_add _
  · simp only [h1, if_false, if_neg h1]
    simp

/-- C8: `analyze_collaboration_network` builds the graph as specified (for
result sets whose author lists are duplicate-free and a positive
`min_papers`): nodes are exactly the (non-empty-named) authors whose
qualifying-paper count — papers with a Birmingham affiliation and more than
one listed author — reaches `min_papers`; the node attribute equals that
count; edges connect exactly the pairs of distinct active authors sharing at
least one qualifying paper, weighted by the number of qualifying papers
listing both (edges to non-active authors are dropped). -/
theorem c8_graph_construction (papers : List TPaper) (m : Nat) (hm : 1 ≤ m)
    (hnd : ∀ p ∈ papers, (p.authors.filter (fun a => a ≠ "")).Nodup) :
    (∀ x, x ∈ (buildCollabGraph papers m).nodes ↔ isActive papers m x = true) ∧
    (∀ x, isActive papers m x = true ↔ (x ≠ "" ∧ m ≤ numQual papers x)) ∧
    (∀ x, isActive papers m x = true →
      (collabFold papers).cnt x = numQual papers x) ∧
    (∀ x y, hasEdge papers m x y = true ↔
      (isActive papers m x = true ∧ isActive papers m y = true ∧ x ≠ y ∧
        0 < numBoth papers x y)) ∧
    (∀ x y, hasEdge papers m x y = true →
      edgeWeight papers x y = numBoth papers x y) := by
  have hactive : ∀ x, isActive papers m x = true ↔ (x ≠ "" ∧ m ≤ numQual papers x) := by
    intro x
    rw [isActive, collabFold_cnt_closed papers hnd x]
    by_cases hx : x = ""
    · subst hx
      simp
    · rw [if_neg hx]
      simp only [Bool.and_eq_true, decide_eq_true_eq]
      constructor
      · rintro ⟨_, h2⟩
        exact ⟨hx, h2⟩
      · rintro ⟨_, h2⟩
        exact ⟨by omega, h2⟩
  have hseen : ∀ x, isActive papers m x = true → x ∈ (collabFold papers).seen := by
    intro x hx
    rcases (hactive x).mp hx with ⟨hxe, hle⟩
    have hpos : 0 < numQual papers x := by omega
    rw [numQual] at hpos
    obtain ⟨p, hp⟩ := List.exists_mem_of_length_pos hpos
    rcases List.mem_filter.mp hp with ⟨hp1, hp2⟩
    simp only [Bool.and_eq_true] at hp2
    rcases hp2 with ⟨hq, hmem⟩
    exact (foldl_collabStep_seen_mem papers ⟨fun _ => 0, [], fun _ _ => 0⟩ x).mpr
      (Or.inr ⟨p, hp1, hq, hxe, of_decide_eq_true hmem⟩)
  have hedge : ∀ x y, hasEdge papers m x y = true ↔
      (isActive papers m x = true ∧ isActive papers m y = true ∧ x ≠ y ∧
        0 < numBoth papers x y) := by
    intro x y
    constructor
    · intro h
      rw [hasEdge] at h
      simp only [Bool.and_eq_true] at h
      rcases h with ⟨⟨ha, hb⟩, hc⟩
      have hxe := ((hactive x).mp ha).1
      have hye := ((hactive y).mp hb).1
      have hcoll := of_decide_eq_true hc
      rw [collabFold_collab_closed papers hnd] at hcoll
      by_cases hxy : x = y
      · rw [if_neg (fun hcond => hcond.1 hxy)] at hcoll
        exact absurd hcoll (lt_irrefl 0)
      · rw [if_pos ⟨hxy, hxe, hye⟩] at hcoll
        exact ⟨ha, hb, hxy, hcoll⟩
    · rintro ⟨ha, hb, hxy, hpos⟩
      have hxe := ((hactive x).mp ha).1
      have hye := ((hactive y).mp hb).1
      have hco : (collabFold papers).collab x y = numBoth papers x y := by
        rw [collabFold_collab_closed papers hnd, if_pos ⟨hxy, hxe, hye⟩]
      rw [hasEdge, ha, hb, hco]
      simpa using hpos
  refine ⟨?_, hactive, ?_, hedge, ?_⟩
  · intro x
    rw [buildCollabGraph]
    rw [List.mem_filter]
    constructor
    · rintro ⟨_, h⟩
      exact h
    · intro h
      exact ⟨hseen x h, h⟩
  · intro x hx
    rcases (hactive x).mp hx with ⟨hxe, _⟩
    rw [collabFold_cnt_closed papers hnd x, if_neg hxe]
  · intro x y h
    rcases (hedge x y).mp h with ⟨ha, hb, hxy, _⟩
    have hxe := ((hactive x).mp ha).1
    have hye := ((hactive y).mp hb).1
    rw [edgeWeight, collabFold_collab_closed papers hnd, if_pos ⟨hxy, hxe, hye⟩]

/-- C8 witness: on two identical qualifying two-author papers with
`min_papers = 2`, the construction hypotheses hold and the graph
characterization applies. -/
theorem c8_graph_construction_witness :
    (1 ≤ 2) ∧
    (∀ p ∈ c8papers, (p.authors.filter (fun a => a ≠ "")).Nodup) ∧
    (∀ x y, hasEdge c8papers 2 x y = true ↔
      (isActive c8papers 2 x = true ∧ isActive c8papers 2 y = true ∧ x ≠ y ∧
        0 < numBoth c8papers x y)) :=
  ⟨by decide, by decide,
    (c8_graph_construction c8papers 2 (by decide) (by decide)).2.2.2.1⟩

/-- C5: the claim is false as stated — the earlier-count is NOT floored at 1
in general.  With 4 qualifying years and a keyword occurring 3 times in the
recent window and never earlier, the source computes growth
`(3 − 0) / max(0, 1) = 3.0`, whereas the claim's flooring rule gives
`(3 − 1) / 1 = 2.0`. -/
theorem c5_counterexample :
    (analyzeResearchTrends 2024 10 c5rawPapers).emergingKeywords =
      [("transformer", 3, ⟨3, 1⟩)] ∧
    specFlooredGrowth 3 0 = ⟨2, 1⟩ ∧
    fracVal ⟨3, 1⟩ = 3 ∧
    fracVal (specFlooredGrowth 3 0) = 2 ∧
    fracVal (⟨3, 1⟩ : Frac) ≠ fracVal (specFlooredGrowth 3 0) := by
  refine ⟨by decide, by decide, by norm_num [fracVal], ?_, ?_⟩
  · rw [show specFlooredGrowth 3 0 = (⟨2, 1⟩ : Frac) from by decide]
    norm_num [fracVal]
  · rw [show specFlooredGrowth 3 0 = (⟨2, 1⟩ : Frac) from by decide]
    norm_num [fracVal]

/-- C5 (amended): with at least 3 distinct qualifying years, the most recent
3 years form the recent window and all earlier years the earlier window; a
keyword's earlier-count is the raw count over the earlier window, taken as 1
only when no earlier years exist; a keyword is emerging iff its recent-count
≥ 2 exceeds that earlier-count, ranked by `(recent − earlier) /
max(earlier, 1)` (raw earlier in the numerator) descending, top 10.  The
spec's example holds: recent {transformer: 3, attention: 2} and earlier
{transformer: 1, attention: 5} make "transformer" emerging with growth 2.0
and exclude "attention". -/
theorem c5_emerging_amended :
    (∀ (cy yb : Int) (papers : List TPaper),
      3 ≤ (tYears (cy - yb) papers).length →
      ((analyzeResearchTrends cy yb papers).emergingKeywords =
        (sortDescGrowth ((trendFold (cy - yb) papers).kwKeys.filterMap (fun k =>
          let ys := tYears (cy - yb) papers
          let r := kwWindowCount (cy - yb) papers (ys.drop (ys.length - 3)) k
          let e := if (ys.take (ys.length - 3)).isEmpty then 1
            else kwWindowCount (cy - yb) papers (ys.take (ys.length - 3)) k
          if 2 ≤ r ∧ e < r then
            some (k, r, (⟨(r : Int) - (e : Int), ((max e 1 : Nat) : Int)⟩ : Frac))
          else none))).take 10 ∧
       (∀ k, k ∈ (trendFold (cy - yb) papers).kwKeys ↔
         ∃ p, p ∈ papers ∧ tQual (cy - yb) p = true ∧ k ∈ kwsOf p) ∧
       (tYears (cy - yb) papers).Pairwise (· ≤ ·))) ∧
    ((analyzeResearchTrends 2024 10 c5abPapers).emergingKeywords =
      [("transformer", 3, ⟨2, 1⟩)] ∧
     fracVal ⟨2, 1⟩ = 2) := by
  constructor
  · intro cy yb papers h3
    refine ⟨?_, ?_, tYears_pairwise _ _⟩
    · have hrec : ((tYears (cy - yb) papers).drop
          ((tYears (cy - yb) papers).length - 3)).Nodup :=
        (List.drop_sublist _ _).nodup (tYears_nodup _ _)
      have hear : ((tYears (cy - yb) papers).take
          ((tYears (cy - yb) papers).length - 3)).Nodup :=
        (List.take_sublist _ _).nodup (tYears_nodup _ _)
      simp only [analyzeResearchTrends]
      rw [if_pos h3]
      congr 1
      refine congrArg sortDescGrowth ?_
      refine List.filterMap_congr ?_
      intro k _
      rw [kw_window_sum _ _ _ hrec k, kw_window_sum _ _ _ hear k]
    · intro k
      have := foldl_trendStep_kwKeys_mem (cy - yb) papers
        { ydKeys := [], yd := fun _ => ⟨0, 0, [], []⟩, kwKeys := [], kw := fun _ _ => 0 } k
      simpa [trendFold] using this
  · exact ⟨by decide, by norm_num [fracVal]⟩

/-- C5 witness: on the spec's example input the amended characterization
applies and the emerging list is exactly transformer with growth 2.0. -/
theorem c5_emerging_witness :
    3 ≤ (tYears (2024 - 10) c5abPapers).length ∧
    (∀ k, k ∈ (trendFold (2024 - 10) c5abPapers).kwKeys ↔
      ∃ p, p ∈ c5abPapers ∧ tQual (2024 - 10) p = true ∧ k ∈ kwsOf p) ∧
    (analyzeResearchTrends 2024 10 c5abPapers).emergingKeywords =
      [("transformer", 3, ⟨2, 1⟩)] :=
  ⟨by decide, (c5_emerging_amended.1 2024 10 c5abPapers (by decide)).2.1, by decide⟩
